import Mathlib

/-!
Verification development for the APM distributed-compilation subsystem
(`apm_cli/compilation/context_optimizer.py` and
`apm_cli/compilation/distributed_compiler.py`).

The Python source is shallowly embedded as executable Lean definitions:

* Directory paths are lists of path segments relative to the project root
  (`base_dir` itself is `[]`); `Path.relative_to`/`Path.parent`/`/` become
  list operations.
* Python `float` scores are embedded as exact fractions (`Frac` below) with
  the numerators/denominators the source actually computes; every comparison
  the source performs (`<`, `>`, `==`, `max`, `min`) is value-based, exactly
  as for floats.  `Frac.toRat` maps a score to `ℚ` for order reasoning.
* Filesystem-dependent pieces (`glob`, `fnmatch`, `os.walk`) are inputs of
  the embedding: the directory catalog produced by `_analyze_project_structure`
  is a field of `CompileEnv`, and `_file_matches_pattern` (which reads the
  real filesystem through a glob cache and symlink resolution) is an
  uninterpreted boolean function field `file_matches`.
-/

/-- Exact-fraction embedding of the Python `float` values computed by the
optimizer.  The denominator is kept as the `Nat` the source divides by, so
every constructor used below produces a positive denominator. -/
structure Frac where
  num : Int
  den : Nat
deriving DecidableEq

/-- Embedding of the float literal `0.0`. -/
def fzero : Frac := ⟨0, 1⟩

/-- Embedding of the float literal `1.0`. -/
def fone : Frac := ⟨1, 1⟩

/-- Embedding of a Python int used in float arithmetic. -/
def Frac.ofNat (n : Nat) : Frac := ⟨n, 1⟩

/-- Embedding of a Python int (possibly negative) used in float arithmetic. -/
def Frac.ofInt (z : Int) : Frac := ⟨z, 1⟩

/-- Float addition. -/
def fadd (a b : Frac) : Frac := ⟨a.num * b.den + b.num * a.den, a.den * b.den⟩

/-- Float subtraction. -/
def fsub (a b : Frac) : Frac := ⟨a.num * b.den - b.num * a.den, a.den * b.den⟩

/-- Float multiplication. -/
def fmul (a b : Frac) : Frac := ⟨a.num * b.num, a.den * b.den⟩

/-- Division of a float by a positive integer count (the only division the
source performs besides `Nat/Nat` ratios). -/
def fdivNat (a : Frac) (n : Nat) : Frac := ⟨a.num, a.den * n⟩

/-- Embedding of the Python expression `m / t` for nonnegative ints. -/
def ratioNat (m t : Nat) : Frac := ⟨m, t⟩

/-- Value comparison `a < b` (cross multiplication; denominators are
positive at every use site). -/
def flt (a b : Frac) : Bool := decide (a.num * (b.den : Int) < b.num * (a.den : Int))

/-- Value comparison `a <= b`. -/
def fle (a b : Frac) : Bool := decide (a.num * (b.den : Int) ≤ b.num * (a.den : Int))

/-- Python `max(a, b)`: returns the first argument when the values are equal. -/
def fmax (a b : Frac) : Frac := if fle b a then a else b

/-- Python `min(a, b)`: returns the first argument when the values are equal. -/
def fmin (a b : Frac) : Frac := if fle a b then a else b

/-- Value test `a == 0.0` (exact, as for the floats the source produces
from integer ratios). -/
def fisZero (a : Frac) : Bool := a.num == 0

/-- Rational value denoted by a `Frac`. -/
def Frac.toRat (a : Frac) : ℚ := (a.num : ℚ) / (a.den : ℚ)

/-- A `Frac` whose denominator is positive (true for every score the
embedded source constructs). -/
def Frac.IsPos (a : Frac) : Prop := 0 < a.den

theorem fzero_isPos : fzero.IsPos := Nat.one_pos

theorem fone_isPos : fone.IsPos := Nat.one_pos

theorem ofNat_isPos (n : Nat) : (Frac.ofNat n).IsPos := Nat.one_pos

theorem fadd_isPos {a b : Frac} (ha : a.IsPos) (hb : b.IsPos) : (fadd a b).IsPos :=
  Nat.mul_pos ha hb

theorem fsub_isPos {a b : Frac} (ha : a.IsPos) (hb : b.IsPos) : (fsub a b).IsPos :=
  Nat.mul_pos ha hb

theorem fmul_isPos {a b : Frac} (ha : a.IsPos) (hb : b.IsPos) : (fmul a b).IsPos :=
  Nat.mul_pos ha hb

theorem fdivNat_isPos {a : Frac} {n : Nat} (ha : a.IsPos) (hn : 0 < n) :
    (fdivNat a n).IsPos :=
  Nat.mul_pos ha hn

theorem ratioNat_isPos {m t : Nat} (ht : 0 < t) : (ratioNat m t).IsPos := ht

theorem toRat_fzero : fzero.toRat = 0 := by simp [fzero, Frac.toRat]

theorem toRat_fone : fone.toRat = 1 := by simp [fone, Frac.toRat]

theorem toRat_ofNat (n : Nat) : (Frac.ofNat n).toRat = n := by
  simp [Frac.ofNat, Frac.toRat]

theorem toRat_fadd {a b : Frac} (ha : a.IsPos) (hb : b.IsPos) :
    (fadd a b).toRat = a.toRat + b.toRat := by
  have ha' : ((a.den : ℚ)) ≠ 0 := by exact_mod_cast Nat.pos_iff_ne_zero.mp ha
  have hb' : ((b.den : ℚ)) ≠ 0 := by exact_mod_cast Nat.pos_iff_ne_zero.mp hb
  simp only [fadd, Frac.toRat]
  push_cast
  field_simp

theorem toRat_fsub {a b : Frac} (ha : a.IsPos) (hb : b.IsPos) :
    (fsub a b).toRat = a.toRat - b.toRat := by
  have ha' : ((a.den : ℚ)) ≠ 0 := by exact_mod_cast Nat.pos_iff_ne_zero.mp ha
  have hb' : ((b.den : ℚ)) ≠ 0 := by exact_mod_cast Nat.pos_iff_ne_zero.mp hb
  simp only [fsub, Frac.toRat]
  push_cast
  field_simp
  ring

theorem toRat_fmul {a b : Frac} (ha : a.IsPos) (hb : b.IsPos) :
    (fmul a b).toRat = a.toRat * b.toRat := by
  have ha' : ((a.den : ℚ)) ≠ 0 := by exact_mod_cast Nat.pos_iff_ne_zero.mp ha
  have hb' : ((b.den : ℚ)) ≠ 0 := by exact_mod_cast Nat.pos_iff_ne_zero.mp hb
  simp only [fmul, Frac.toRat]
  push_cast
  field_simp

theorem toRat_fdivNat {a : Frac} {n : Nat} (ha : a.IsPos) (hn : 0 < n) :
    (fdivNat a n).toRat = a.toRat / n := by
  have ha' : ((a.den : ℚ)) ≠ 0 := by exact_mod_cast Nat.pos_iff_ne_zero.mp ha
  have hn' : ((n : ℚ)) ≠ 0 := by exact_mod_cast Nat.pos_iff_ne_zero.mp hn
  simp only [fdivNat, Frac.toRat]
  push_cast
  field_simp

theorem toRat_ratioNat {m t : Nat} : (ratioNat m t).toRat = (m : ℚ) / t := by
  simp [ratioNat, Frac.toRat]

theorem flt_iff {a b : Frac} (ha : a.IsPos) (hb : b.IsPos) :
    flt a b = true ↔ a.toRat < b.toRat := by
  have ha' : (0 : ℚ) < (a.den : ℚ) := by exact_mod_cast ha
  have hb' : (0 : ℚ) < (b.den : ℚ) := by exact_mod_cast hb
  simp only [flt, decide_eq_true_eq, Frac.toRat]
  rw [div_lt_div_iff₀ ha' hb']
  constructor
  · intro h
    exact_mod_cast h
  · intro h
    exact_mod_cast h

theorem fle_iff {a b : Frac} (ha : a.IsPos) (hb : b.IsPos) :
    fle a b = true ↔ a.toRat ≤ b.toRat := by
  have ha' : (0 : ℚ) < (a.den : ℚ) := by exact_mod_cast ha
  have hb' : (0 : ℚ) < (b.den : ℚ) := by exact_mod_cast hb
  simp only [fle, decide_eq_true_eq, Frac.toRat]
  rw [div_le_div_iff₀ ha' hb']
  constructor
  · intro h
    exact_mod_cast h
  · intro h
    exact_mod_cast h

/-!
Paths and string ordering.

A directory or file path is represented by its segments relative to the
project root (`base_dir` is `[]`).  `Path` comparisons in the source
(`sorted(...)` over `pathlib.Path` values under a common root, and Python
string `sorted`) are lexicographic on the rendered string, embedded by
`strLe` below (code-point comparison, as in Python).
-/

/-- Segment list of a path relative to the project root. -/
abbrev DirPath := List String

/-- Rendering of a relative path, as Python `str(path.relative_to(base_dir))`
renders the paths that appear in warnings and attribution lines. -/
def pathStr (p : DirPath) : String := String.intercalate "/" p

/-- Lexicographic code-point comparison of character lists (the comparison
Python performs on `str` values). -/
def charListLe : List Char → List Char → Bool
  | [], _ => true
  | _ :: _, [] => false
  | a :: as, b :: bs =>
    if a.toNat < b.toNat then true
    else if b.toNat < a.toNat then false
    else charListLe as bs

/-- Python string `<=` (lexicographic by code point). -/
def strLe (a b : String) : Bool := charListLe a.data b.data

/-- String order as a relation, for `List.insertionSort` and sortedness
statements. -/
def strLeRel (a b : String) : Prop := strLe a b = true

instance : DecidableRel strLeRel := fun a b => by
  unfold strLeRel
  infer_instance

/-- Path order induced by rendered-string order (the order of Python
`sorted` on `Path` values sharing the project root). -/
def pathLeRel (a b : DirPath) : Prop := strLe (pathStr a) (pathStr b) = true

instance : DecidableRel pathLeRel := fun a b => by
  unfold pathLeRel
  infer_instance

theorem charListLe_total : ∀ a b : List Char, charListLe a b = true ∨ charListLe b a = true := by
  intro a
  induction a with
  | nil => intro b; left; rfl
  | cons x xs ih =>
    intro b
    cases b with
    | nil => right; rfl
    | cons y ys =>
      by_cases hxy : x.toNat < y.toNat
      · left; simp [charListLe, hxy]
      · by_cases hyx : y.toNat < x.toNat
        · right; simp [charListLe, hyx]
        · rcases ih ys with h | h
          · left; simp [charListLe, hxy, hyx, h]
          · right; simp [charListLe, hxy, hyx, h]

theorem charListLe_trans : ∀ a b c : List Char,
    charListLe a b = true → charListLe b c = true → charListLe a c = true := by
  intro a
  induction a with
  | nil => intro b c _ _; rfl
  | cons x xs ih =>
    intro b c hab hbc
    cases b with
    | nil => simp [charListLe] at hab
    | cons y ys =>
      cases c with
      | nil => simp [charListLe] at hbc
      | cons z zs =>
        by_cases hxy : x.toNat < y.toNat
        · by_cases hyz : y.toNat < z.toNat
          · have hxz : x.toNat < z.toNat := Nat.lt_trans hxy hyz
            simp [charListLe, hxz]
          · by_cases hzy : z.toNat < y.toNat
            · simp [charListLe, hyz, hzy] at hbc
            · have hyz' : y.toNat = z.toNat := Nat.le_antisymm (Nat.le_of_not_lt hzy) (Nat.le_of_not_lt hyz)
              have hxz : x.toNat < z.toNat := hyz' ▸ hxy
              simp [charListLe, hxz]
        · by_cases hyx : y.toNat < x.toNat
          · simp [charListLe, hxy, hyx] at hab
          · have hxy' : x.toNat = y.toNat := Nat.le_antisymm (Nat.le_of_not_lt hyx) (Nat.le_of_not_lt hxy)
            by_cases hyz : y.toNat < z.toNat
            · have hxz : x.toNat < z.toNat := hxy' ▸ hyz
              simp [charListLe, hxz]
            · by_cases hzy : z.toNat < y.toNat
              · simp [charListLe, hyz, hzy] at hbc
              · have hxz : ¬ x.toNat < z.toNat := by
                  rw [hxy']
                  exact hyz
                have hzx : ¬ z.toNat < x.toNat := by
                  rw [hxy']
                  exact hzy
                simp [charListLe, hxy, hyx] at hab
                simp [charListLe, hyz, hzy] at hbc
                simp [charListLe, hxz, hzx]
                exact ih ys zs hab hbc

instance : IsTotal String strLeRel := ⟨fun a b => charListLe_total a.data b.data⟩

instance : IsTrans String strLeRel := ⟨fun a b c => charListLe_trans a.data b.data c.data⟩

/-- Sort a list of relative paths the way Python `sorted` sorts the
corresponding `Path` values (ascending rendered-string order). -/
def sortPaths (l : List DirPath) : List DirPath := List.insertionSort pathLeRel l

theorem mem_sortPaths {p : DirPath} {l : List DirPath} : p ∈ sortPaths l ↔ p ∈ l :=
  (List.perm_insertionSort pathLeRel l).mem_iff

/-- Ancestor-chain of a directory, from the directory itself up to and
including the project root (`_get_inheritance_chain`). -/
def get_inheritance_chain (p : DirPath) : List DirPath :=
  (List.range (p.length + 1)).map (fun k => p.take (p.length - k))

/-- Hierarchical coverage test (`_is_hierarchically_covered`):
`target.relative_to(placement)` succeeds exactly when the placement's
segments are a prefix of the target's segments. -/
def is_hierarchically_covered (target placement : DirPath) : Bool :=
  placement.isPrefixOf target

theorem is_hierarchically_covered_iff {target placement : DirPath} :
    is_hierarchically_covered target placement = true ↔ placement <+: target := by
  simp [is_hierarchically_covered, List.isPrefixOf_iff_prefix]

theorem is_hierarchically_covered_self (p : DirPath) :
    is_hierarchically_covered p p = true :=
  is_hierarchically_covered_iff.mpr (List.prefix_refl p)

/-!
Data model (`apm_cli/primitives/models.py`, `context_optimizer.py`).
-/

/-- Instruction primitive (`primitives/models.py`).  `file_path` is kept
relative to the project root; `source` is the source tag the discovery
stage assigns (`local` or `dependency:<name>` — the dataclass field is
`Optional[str]`, rendered by the compiler through
`getattr(instruction, 'source', 'local')`; the embedding models the tag
as set, which is how discovery produces it). -/
structure Instruction where
  name : String
  file_path : DirPath
  description : String
  apply_to : String
  content : String
  source : String
deriving DecidableEq

/-- Catalog record produced for one directory by
`_analyze_project_structure` (`DirectoryAnalysis` in the source): the
directory path and its non-hidden files.  The source's `depth` field always
equals the number of relative path segments, so it is derived here as
`directory.length`; `total_files` is `files.length`; `pattern_matches`
counts are recomputed on demand via `match_count` below (the source's dict
is a lazily-populated cache of exactly those counts). -/
structure DirectoryAnalysis where
  directory : DirPath
  files : List String
deriving DecidableEq

/-- Result of `_file_matches_pattern`: segments of a file path relative to
the project root, pattern string, boolean.  The real implementation
consults the filesystem (glob cache, symlink resolution), so the embedding
takes it as an input. -/
abbrev Matcher := List String → String → Bool

/-- Environment of one compile run: the filesystem-derived inputs of the
optimizer and compiler, fixed for the duration of the run. -/
structure CompileEnv where
  /-- Catalog from `_analyze_project_structure`: every non-ignored
  directory that holds at least one non-hidden file. -/
  catalog : List DirectoryAnalysis
  /-- `_file_matches_pattern` on this filesystem. -/
  file_matches : Matcher
  /-- Directories that exist on disk (`Path.exists() and Path.is_dir()`),
  whether or not they are in the catalog. -/
  existing_dirs : List DirPath
  /-- Relative paths (final segment `AGENTS.md`) of every pre-existing
  `AGENTS.md` file found by `base_dir.rglob("AGENTS.md")`. -/
  agents_files : List DirPath
  /-- Whether `find_constitution(base_dir)` exists. -/
  constitution_exists : Bool
  /-- Value of `get_version()` (read from package metadata). -/
  version : String
  /-- Models an exception raised inside the `try` block of
  `compile_distributed` (I/O failures and the like); `none` on a clean run. -/
  failure : Option String

/-- Number of files of catalog entry `d` matching `pattern`
(the `match_count` stored into `analysis.pattern_matches[pattern]` by
`_find_matching_directories`). -/
def match_count (env : CompileEnv) (d : DirectoryAnalysis) (pattern : String) : Nat :=
  (d.files.filter (fun f => env.file_matches (d.directory ++ [f]) pattern)).length

/-- `DirectoryAnalysis.get_relevance_score`: fraction of the directory's
files matching the pattern (0 for an empty directory).  The source reads
`pattern_matches.get(pattern, 0)`, which always equals `match_count`
because `_find_matching_directories` stores the count exactly when it is
nonzero. -/
def get_relevance_score (env : CompileEnv) (d : DirectoryAnalysis) (pattern : String) : Frac :=
  if d.files.length == 0 then fzero
  else ratioNat (match_count env d pattern) d.files.length

/-- Catalog lookup (`self._directory_cache[directory]`). -/
def catalogFind (env : CompileEnv) (p : DirPath) : Option DirectoryAnalysis :=
  env.catalog.find? (fun d => d.directory == p)

/-- Membership test `directory in self._directory_cache`. -/
def inCatalog (env : CompileEnv) (p : DirPath) : Bool :=
  (catalogFind env p).isSome

/-- `_find_matching_directories`: directories of the catalog containing at
least one file matching the pattern.  The source iterates
`sorted(self._directory_cache.items())` and collects a `set`; the embedding
filters the catalog in place — the resulting collection of directories is
the same, and every consumer either treats it as a set or sorts it. -/
def find_matching_directories (env : CompileEnv) (pattern : String) : List DirPath :=
  (env.catalog.filter (fun d => 0 < match_count env d pattern)).map (fun d => d.directory)

/-- `_calculate_coverage_efficiency` (callers guarantee the directory is in
the catalog; a missing directory yields 0 rather than the source's
`KeyError`, which no call site can trigger). -/
def calculate_coverage_efficiency (env : CompileEnv) (p : DirPath) (pattern : String) : Frac :=
  match catalogFind env p with
  | some d => get_relevance_score env d pattern
  | none => fzero

/-- `_calculate_inheritance_pollution`: 0.5 per catalogued direct child
with zero relevance to the pattern, 0.2 per child with relevance below 0.1.
The source iterates `directory.iterdir()`; the embedding iterates the
catalog — the same set of catalogued children, and the result is a sum, so
iteration order is irrelevant. -/
def calculate_inheritance_pollution (env : CompileEnv) (p : DirPath) (pattern : String) : Frac :=
  let children := env.catalog.filter
    (fun c => c.directory.length == p.length + 1 && c.directory.dropLast == p)
  children.foldl (fun acc c =>
    let rel := get_relevance_score env c pattern
    if fisZero rel then fadd acc ⟨5, 10⟩
    else if flt rel ⟨1, 10⟩ then fadd acc ⟨2, 10⟩
    else acc) fzero

/-- `_calculate_pollution_minimization` (alias in the source). -/
def calculate_pollution_minimization (env : CompileEnv) (p : DirPath) (pattern : String) : Frac :=
  calculate_inheritance_pollution env p pattern

/-- `_calculate_maintenance_locality`: `min(1.0, pattern_matches / total_files)`. -/
def calculate_maintenance_locality (env : CompileEnv) (p : DirPath) (pattern : String) : Frac :=
  match catalogFind env p with
  | some d =>
    if d.files.length == 0 then fzero
    else fmin fone (ratioNat (match_count env d pattern) d.files.length)
  | none => fzero

/-- Number of catalogued directories that contain files
(`total_dirs_with_files` in `_calculate_distribution_score`; every catalog
entry has files, so this is the catalog size, but the source's filter is
kept). -/
def totalDirsWithFiles (env : CompileEnv) : Nat :=
  (env.catalog.filter (fun d => 0 < d.files.length)).length

/-- `_calculate_distribution_score`: `(|matching| / |dirs with files|) *
(1 + 0.5 * variance(depths of matching))`. -/
def calculate_distribution_score (env : CompileEnv) (matching : List DirPath) : Frac :=
  if totalDirsWithFiles env == 0 then fzero
  else
    let baseRatio := ratioNat matching.length (totalDirsWithFiles env)
    let depths := matching.map List.length
    match depths with
    | [] => baseRatio
    | _ :: _ =>
      let n := depths.length
      let mean := fdivNat (Frac.ofNat depths.sum) n
      let variance := fdivNat
        (depths.foldl (fun acc d =>
          fadd acc (fmul (fsub (Frac.ofNat d) mean) (fsub (Frac.ofNat d) mean))) fzero) n
      let diversity := fadd fone (fmul variance ⟨5, 10⟩)
      fmul baseRatio diversity

/-- `_calculate_hierarchical_coverage`: the subset of `targets` covered by
some placement through ancestor inheritance. -/
def calculate_hierarchical_coverage (placements : List DirPath) (targets : List DirPath) :
    List DirPath :=
  targets.filter (fun t => placements.any (fun p => is_hierarchically_covered t p))

/-- Shared index bound of the common-prefix loop in
`_find_minimal_coverage_placement`: `min(len(d.parts) for d in dirs)`. -/
def minDepthList : List DirPath → Nat
  | [] => 0
  | d :: rest => rest.foldl (fun m e => Nat.min m e.length) d.length

/-- Whether all directories share the same segment at index `i`
(`len(set(parts_at_level)) == 1` in the source). -/
def allSameAt (ds : List DirPath) (i : Nat) : Bool :=
  match ds with
  | [] => true
  | d :: rest => rest.all (fun e => e.get? i == d.get? i)

/-- Common-prefix loop of `_find_minimal_coverage_placement`: starting at
index `i` with `fuel` remaining indices, collect segments while all
directories agree. -/
def commonPartsFrom (ds : List DirPath) : Nat → Nat → List String
  | _, 0 => []
  | i, Nat.succ fuel =>
    if allSameAt ds i then
      match ds with
      | [] => []
      | d :: _ =>
        match d.get? i with
        | some s => s :: commonPartsFrom ds (i + 1) fuel
        | none => []
    else []

/-- Longest shared segment prefix of a family of relative paths. -/
def commonParts (ds : List DirPath) : List String :=
  commonPartsFrom ds 0 (minDepthList ds)

/-- `_find_minimal_coverage_placement`: `None` for no directories, the
directory itself for one, otherwise the longest common path prefix (which
is the project root `[]` when no segments are shared — the source returns
`base_dir` in that case and `base_dir / Path(*common_parts)` otherwise,
both of which this relative form covers). -/
def find_minimal_coverage_placement : List DirPath → Option DirPath
  | [] => none
  | [d] => some d
  | ds => some (commonParts ds)

/-!
Placement candidates and the three strategies (`context_optimizer.py`).
-/

/-- Placement candidate scores (`PlacementCandidate` with the fields
`_generate_all_candidates` attaches; the dataclass's legacy
`direct_relevance`/`inheritance_pollution`/`depth_specificity` fields and
the `__post_init__` score they briefly hold are dead — the source
overwrites `total_score` with the value recorded here, and no consumer
reads the legacy fields). -/
structure PlacementCandidate where
  directory : DirPath
  coverage_efficiency : Frac
  pollution_score : Frac
  maintenance_locality : Frac
  total_score : Frac
deriving DecidableEq

/-- Weight constants of `ContextOptimizer`. -/
def COVERAGE_EFFICIENCY_WEIGHT : Frac := fone

/-- Weight constant `POLLUTION_MINIMIZATION_WEIGHT = 0.8`. -/
def POLLUTION_MINIMIZATION_WEIGHT : Frac := ⟨8, 10⟩

/-- Weight constant `MAINTENANCE_LOCALITY_WEIGHT = 0.3`. -/
def MAINTENANCE_LOCALITY_WEIGHT : Frac := ⟨3, 10⟩

/-- Threshold constant `LOW_DISTRIBUTION_THRESHOLD = 0.3`. -/
def LOW_DISTRIBUTION_THRESHOLD : Frac := ⟨3, 10⟩

/-- Threshold constant `HIGH_DISTRIBUTION_THRESHOLD = 0.7`. -/
def HIGH_DISTRIBUTION_THRESHOLD : Frac := ⟨7, 10⟩

/-- Depth penalty `max(0, (depth - 3) * DEPTH_PENALTY_FACTOR)` applied in
`_generate_all_candidates` (`DEPTH_PENALTY_FACTOR = 0.1`). -/
def depthPenalty (p : DirPath) : Frac :=
  fmax fzero ⟨(p.length : Int) - 3, 10⟩

/-- Candidate record built by the body of the loop in
`_generate_all_candidates` for one potential directory. -/
def mkCandidate (env : CompileEnv) (p : DirPath) (pattern : String) : PlacementCandidate :=
  let cov := calculate_coverage_efficiency env p pattern
  let poll := calculate_pollution_minimization env p pattern
  let maint := calculate_maintenance_locality env p pattern
  { directory := p
    coverage_efficiency := cov
    pollution_score := poll
    maintenance_locality := maint
    total_score :=
      fsub
        (fadd (fadd (fmul cov COVERAGE_EFFICIENCY_WEIGHT)
                    (fmul (fsub fone poll) POLLUTION_MINIMIZATION_WEIGHT))
              (fmul maint MAINTENANCE_LOCALITY_WEIGHT))
        (depthPenalty p) }

/-- `_generate_all_candidates`: candidates for the matching directories
plus, when there are several, their minimal covering ancestor and every
catalogued intermediate ancestor; dirs outside the catalog are skipped.
The source collects a `set` and iterates `sorted(potential_directories)`,
embedded by `dedup` plus `sortPaths`. -/
def generate_all_candidates (env : CompileEnv) (matching : List DirPath) (pattern : String) :
    List PlacementCandidate :=
  let potential :=
    if 1 < matching.length then
      let withAncestor :=
        match find_minimal_coverage_placement matching with
        | some p => matching ++ [p]
        | none => matching
      let intermediates := matching.flatMap (fun d =>
        (get_inheritance_chain d).filter (fun c => c != d && inCatalog env c))
      (withAncestor ++ intermediates).dedup
    else matching.dedup
  (sortPaths potential).filterMap (fun p =>
    match catalogFind env p with
    | some _ => some (mkCandidate env p pattern)
    | none => none)

/-- Python `max(iterable, key=...)` over a nonempty list (first element,
then the rest): later elements replace the current best only on a strictly
greater key. -/
def pyMaxBy {α : Type} (key : α → Frac) (a : α) (l : List α) : α :=
  l.foldl (fun best x => if flt (key best) (key x) then x else best) a

/-- `_optimize_single_point_placement`: keep only candidates that alone
cover every matching directory; among them pick the maximal
`coverage_efficiency - pollution_score`; if none covers everything fall
back to the minimal covering ancestor, then to the project root. -/
def optimize_single_point_placement (env : CompileEnv) (matching : List DirPath)
    (pattern : String) : List DirPath :=
  let candidates := generate_all_candidates env matching pattern
  match candidates with
  | [] => [[]]
  | c0 :: rest =>
    let coverageCandidates := (c0 :: rest).filter (fun c =>
      calculate_hierarchical_coverage [c.directory] matching == matching)
    match coverageCandidates with
    | [] =>
      match find_minimal_coverage_placement matching with
      | some p => [p]
      | none => [[]]
    | d0 :: drest =>
      [(pyMaxBy (fun c => fsub c.coverage_efficiency c.pollution_score) d0 drest).directory]

/-- `_optimize_distributed_placement`: always the project root. -/
def optimize_distributed_placement (_env : CompileEnv) (_matching : List DirPath)
    (_pattern : String) : List DirPath := [[]]

/-- Relation sorting coverage efficiencies in descending value order
(`sorted(..., reverse=True)` in `_optimize_selective_placement`). -/
def fracGeRel (a b : Frac) : Prop := fle b a = true

instance : DecidableRel fracGeRel := fun a b => by
  unfold fracGeRel
  infer_instance

/-- `_optimize_selective_placement`: first try the minimal covering
ancestor as a single placement (for a non-empty matching set this always
succeeds, so the multi-placement remainder of the source is unreachable;
it is embedded nonetheless). -/
def optimize_selective_placement (env : CompileEnv) (matching : List DirPath)
    (pattern : String) : List DirPath :=
  match find_minimal_coverage_placement matching with
  | some p => [p]
  | none =>
    let candidates := generate_all_candidates env matching pattern
    match candidates with
    | [] => [[]]
    | c0 :: rest =>
      let sortedEff := List.insertionSort fracGeRel ((c0 :: rest).map (fun c : PlacementCandidate => c.coverage_efficiency))
      let idx := (c0 :: rest).length / 5
      let threshold := fmax ⟨8, 10⟩ (sortedEff.getD idx fzero)
      let highRelevance := (c0 :: rest).filter (fun c : PlacementCandidate => fle threshold c.coverage_efficiency)
      let chosen :=
        match highRelevance with
        | [] => [pyMaxBy (fun c : PlacementCandidate => c.total_score) c0 rest]
        | h0 :: hrest => h0 :: hrest
      let optimal := chosen.map (fun c : PlacementCandidate => c.directory)
      let covered := calculate_hierarchical_coverage optimal matching
      let uncovered := matching.filter (fun d => !(covered.contains d))
      if uncovered.isEmpty then optimal
      else
        match find_minimal_coverage_placement matching with
        | some p => [p]
        | none => [[]]

/-- Placement strategy enum (`output/models.py`). -/
inductive PlacementStrategy where
  | singlePoint
  | selectiveMulti
  | distributed
deriving DecidableEq

/-- Audit record of one `OptimizationDecision` (`output/models.py`); the
`instruction` field of the dataclass is the instruction the enclosing
`SolveResult` is about and is not duplicated here. -/
structure OptimizationDecision where
  pattern : String
  matching_directories : Nat
  total_directories : Nat
  distribution_score : Frac
  strategy : PlacementStrategy
  placement_directories : List DirPath
  reasoning : String
  relevance_score : Frac
deriving DecidableEq

/-- Output of `_solve_placement_optimization` for one instruction: the
returned placements plus the warnings and the decision the call appends to
`self._warnings` / `self._optimization_decisions`. -/
structure SolveResult where
  placements : List DirPath
  warnings : List String
  decision : OptimizationDecision
deriving DecidableEq

/-- First path segment of a pattern: `pattern.split('/')[0]`, the text
before the first `/` (the whole pattern when it has no `/`). -/
def firstSegment (pattern : String) : String :=
  String.mk (pattern.data.takeWhile (fun c => c != '/'))

/-- `_extract_intended_directory_from_pattern`: the literal, non-wildcard
first path segment of a pattern that names an existing directory. -/
def extract_intended_directory_from_pattern (env : CompileEnv) (pattern : String) :
    Option DirPath :=
  if pattern == "" || List.isPrefixOf "**/".data pattern.data then none
  else if pattern.data.contains '/' then
    let firstPart := firstSegment pattern
    if !(firstPart.data.contains '*') && firstPart != "" then
      if env.existing_dirs.contains [firstPart] then some [firstPart] else none
    else none
  else none

/-- Relevance score recorded for the primary placement directory
(`placements[0]` when it is in the catalog, else 0). -/
def primaryRelevance (env : CompileEnv) (placements : List DirPath) (pattern : String) : Frac :=
  match placements with
  | [] => fzero
  | p :: _ => if inCatalog env p then calculate_coverage_efficiency env p pattern else fzero

/-- `_solve_placement_optimization`: the per-instruction solver.  An empty
matching set falls back to the intended directory or the root with a
"matches no files" warning; otherwise the distribution score routes the
instruction through one of the three strategies. -/
def solve_placement_optimization (env : CompileEnv) (instr : Instruction) : SolveResult :=
  let pattern := instr.apply_to
  let matching := find_matching_directories env pattern
  match matching with
  | [] =>
    let intended := extract_intended_directory_from_pattern env pattern
    let placement := intended.getD []
    let warning :=
      match intended with
      | some d =>
        "Pattern \x27" ++ pattern ++ "\x27 matches no files - placing in intended directory \x27"
          ++ pathStr d ++ "\x27"
      | none => "Pattern \x27" ++ pattern ++ "\x27 matches no files - placing at project root"
    let reasoning :=
      match intended with
      | some d =>
        "No matching files found, placed in intended directory \x27" ++ pathStr d ++ "\x27"
      | none => "No matching files found, fallback to root placement"
    { placements := [placement]
      warnings := [warning]
      decision :=
        { pattern := pattern
          matching_directories := 0
          total_directories := env.catalog.length
          distribution_score := fzero
          strategy := PlacementStrategy.distributed
          placement_directories := [placement]
          reasoning := reasoning
          relevance_score := primaryRelevance env [placement] pattern } }
  | m0 :: mrest =>
    let matching := m0 :: mrest
    let score := calculate_distribution_score env matching
    let routed :=
      if flt score LOW_DISTRIBUTION_THRESHOLD then
        (PlacementStrategy.singlePoint,
         optimize_single_point_placement env matching pattern,
         "Low distribution pattern optimized for minimal pollution")
      else if flt HIGH_DISTRIBUTION_THRESHOLD score then
        (PlacementStrategy.distributed,
         optimize_distributed_placement env matching pattern,
         "High distribution pattern placed at root to minimize duplication")
      else
        (PlacementStrategy.selectiveMulti,
         optimize_selective_placement env matching pattern,
         "Medium distribution pattern with selective high-relevance placement")
    { placements := routed.2.1
      warnings := []
      decision :=
        { pattern := pattern
          matching_directories := matching.length
          total_directories := env.catalog.length
          distribution_score := score
          strategy := routed.1
          placement_directories := routed.2.1
          reasoning := routed.2.2
          relevance_score := primaryRelevance env routed.2.1 pattern } }

/-- `defaultdict(list)` append `placement_map[directory].append(instruction)`:
appends to the entry in place, or adds a new entry at the end. -/
def dictAppend (m : List (DirPath × List Instruction)) (k : DirPath) (v : Instruction) :
    List (DirPath × List Instruction) :=
  if m.any (fun e => e.1 == k) then
    m.map (fun e => if e.1 == k then (e.1, e.2 ++ [v]) else e)
  else m ++ [(k, [v])]

/-- `optimize_instruction_placement`: instructions without a pattern go to
the project root; the rest are appended at each directory the solver
returns, in instruction order (Python dict insertion order). -/
def optimize_instruction_placement (env : CompileEnv) (instructions : List Instruction) :
    List (DirPath × List Instruction) :=
  instructions.foldl (fun m instr =>
    if instr.apply_to == "" then dictAppend m [] instr
    else (solve_placement_optimization env instr).placements.foldl
      (fun m' p => dictAppend m' p instr) m) []

/-!
Distributed compiler (`distributed_compiler.py`).
-/

/-- Compilation configuration (`config` dict of `compile_distributed`,
with the source's defaults). -/
structure CompileConfig where
  min_instructions_per_file : Nat := 1
  source_attribution : Bool := true
  clean_orphaned : Bool := false
  dry_run : Bool := false

/-- `PrimitiveCollection` as the distributed compiler consumes it: the
instruction list plus the sizes of the other two collections (only their
lengths are read, for statistics). -/
structure PrimitiveCollection where
  chatmodes : Nat
  instructions : List Instruction
  contexts : Nat

/-- `PrimitiveCollection.count()`. -/
def pcCount (p : PrimitiveCollection) : Nat :=
  p.chatmodes + p.instructions.length + p.contexts

/-- `PlacementResult` (without the unused `inherited_instructions`
field, which no code path ever populates). -/
structure PlacementResult where
  agents_path : DirPath
  instructions : List Instruction
  coverage_patterns : List String
  source_attribution : List (String × String)
deriving DecidableEq

/-- Aggregate result of `compile_distributed` (`CompilationResult`).
Statistics values are `Option Frac` because the source's dict holds
floats, ints and `None`. -/
structure CompilationResult where
  success : Bool
  placements : List PlacementResult
  content_map : List (DirPath × String)
  warnings : List String
  errors : List String
  stats : List (String × Option Frac)
deriving DecidableEq

/-- Assoc-list write with Python `dict` semantics: overwrite in place,
else append. -/
def assocSet {β : Type} (m : List (String × β)) (k : String) (v : β) :
    List (String × β) :=
  if m.any (fun e => e.1 == k) then
    m.map (fun e => if e.1 == k then (e.1, v) else e)
  else m ++ [(k, v)]

/-- Assoc-list read (`dict.get(k, default)` is `(assocFind m k).getD default`). -/
def assocFind {β : Type} (m : List (String × β)) (k : String) : Option β :=
  (m.find? (fun e => e.1 == k)).map (fun e => e.2)

/-- Source-attribution map built in `generate_distributed_agents_files`:
`str(instruction.file_path) -> instruction.source` (later instructions
overwrite earlier ones with the same path, as dict assignment does). -/
def buildSourceMap (instrs : List Instruction) : List (String × String) :=
  instrs.foldl (fun m i => assocSet m (pathStr i.file_path) i.source) []

/-- Distinct non-empty `apply_to` patterns of a list of instructions (the
`set` built for `coverage_patterns`). -/
def distinctPatterns (instrs : List Instruction) : List String :=
  (instrs.filterMap (fun i => if i.apply_to == "" then none else some i.apply_to)).dedup

/-- `generate_distributed_agents_files`: one `PlacementResult` per
placement-map entry; an empty map with a constitution present yields a
single empty root placement. -/
def generate_distributed_agents_files (env : CompileEnv) (cfg : CompileConfig)
    (placementMap : List (DirPath × List Instruction)) : List PlacementResult :=
  match placementMap with
  | [] =>
    if env.constitution_exists then
      [{ agents_path := ["AGENTS.md"]
         instructions := []
         coverage_patterns := []
         source_attribution :=
           if cfg.source_attribution then [("constitution", "constitution.md")] else [] }]
    else []
  | _ :: _ =>
    placementMap.map (fun e =>
      { agents_path := e.1 ++ ["AGENTS.md"]
        instructions := e.2
        coverage_patterns := distinctPatterns e.2
        source_attribution := if cfg.source_attribution then buildSourceMap e.2 else [] })

/-- `dict` write used by the `min_instructions` filter:
`filtered_placement[dir_path] = dir_instructions`. -/
def dictSet (m : List (DirPath × List Instruction)) (k : DirPath) (vs : List Instruction) :
    List (DirPath × List Instruction) :=
  if m.any (fun e => e.1 == k) then
    m.map (fun e => if e.1 == k then (e.1, vs) else e)
  else m ++ [(k, vs)]

/-- `filtered_placement[parent_dir].extend(dir_instructions)` preceded by
`filtered_placement[parent_dir] = []` when the key is new. -/
def dictExtend (m : List (DirPath × List Instruction)) (k : DirPath) (vs : List Instruction) :
    List (DirPath × List Instruction) :=
  if m.any (fun e => e.1 == k) then
    m.map (fun e => if e.1 == k then (e.1, e.2 ++ vs) else e)
  else m ++ [(k, vs)]

/-- `determine_agents_placement`: run the optimizer (the `directory_map`
argument of the source is never read); substitute an empty root placement
when the map is empty but a constitution exists; then, when
`min_instructions > 1`, keep directories meeting the threshold (and the
root) and move the instructions of the rest to their parent. -/
def determine_agents_placement (env : CompileEnv) (instructions : List Instruction)
    (minInstructions : Nat) : List (DirPath × List Instruction) :=
  let optimized := optimize_instruction_placement env instructions
  let optimized :=
    if optimized.isEmpty && env.constitution_exists then
      [(([] : DirPath), ([] : List Instruction))]
    else optimized
  if 1 < minInstructions then
    optimized.foldl (fun filtered e =>
      if minInstructions ≤ e.2.length || e.1 == ([] : DirPath) then
        dictSet filtered e.1 e.2
      else
        dictExtend filtered (if e.1 == ([] : DirPath) then [] else e.1.dropLast) e.2) []
  else optimized

/-- `BUILD_ID_PLACEHOLDER` (`compilation/constants.py`). -/
def BUILD_ID_PLACEHOLDER : String := "<!-- Build ID: __BUILD_ID__ -->"

/-- Python `str.strip()` on the ASCII whitespace the instruction bodies
contain. -/
def pyStrip (s : String) : String :=
  let ws := fun c : Char => c == ' ' || c == '\t' || c == '\n' || c == '\r'
  String.mk (((s.data.dropWhile ws).reverse.dropWhile ws).reverse)

/-- Sorted distinct non-empty patterns of a placement's instructions: the
iteration order of `sorted(pattern_groups.items())` in
`_generate_agents_content` (lexicographic, so the grouping dict's
insertion order is immaterial). -/
def sectionPatterns (instrs : List Instruction) : List String :=
  List.insertionSort strLeRel (distinctPatterns instrs)

/-- A placement with the global (empty `apply_to`) instructions removed,
used to state that global instructions contribute no section and no body
text to the generated file. -/
def filterGlobals (p : PlacementResult) : PlacementResult :=
  { agents_path := p.agents_path
    instructions := p.instructions.filter (fun i => !(i.apply_to == ""))
    coverage_patterns := p.coverage_patterns
    source_attribution := p.source_attribution }

/-- Lines contributed by one instruction inside its pattern section: an
optional attribution comment, the stripped content and a blank line —
nothing when the content strips to the empty string. -/
def instructionLines (p : PlacementResult) (i : Instruction) : List String :=
  let content := pyStrip i.content
  if content == "" then []
  else
    (if p.source_attribution.isEmpty then []
     else ["<!-- Source: " ++ ((assocFind p.source_attribution (pathStr i.file_path)).getD "local")
            ++ " " ++ pathStr i.file_path ++ " -->"])
    ++ [content, ""]

/-- Lines of one `## Files matching` section. -/
def sectionLines (p : PlacementResult) (pattern : String) : List String :=
  ("## Files matching `" ++ pattern ++ "`") :: "" ::
    (p.instructions.filter (fun i => i.apply_to == pattern)).flatMap (instructionLines p)

/-- Source-summary comment lines of the header (emitted only when the
attribution map is non-empty). -/
def sourcesHeaderLines (p : PlacementResult) : List String :=
  if p.source_attribution.isEmpty then []
  else
    let sources := (p.source_attribution.map (fun e => e.2)).dedup
    if 1 < sources.length then
      ["<!-- Sources: " ++ String.intercalate ", " (List.insertionSort strLeRel sources) ++ " -->"]
    else ["<!-- Source: " ++ sources.headD "local" ++ " -->"]

/-- Section list built by `_generate_agents_content` before joining. -/
def generate_agents_sections (env : CompileEnv) (p : PlacementResult) : List String :=
  ["# AGENTS.md",
   "<!-- Generated by APM CLI from distributed .apm/ primitives -->",
   BUILD_ID_PLACEHOLDER,
   "<!-- APM Version: " ++ env.version ++ " -->"]
  ++ sourcesHeaderLines p
  ++ [""]
  ++ (sectionPatterns p.instructions).flatMap (sectionLines p)
  ++ ["---",
      "*This file was generated by APM CLI. Do not edit manually.*",
      "*To regenerate: `specify apm compile`*",
      ""]

/-- `_generate_agents_content`: the joined section list. -/
def generate_agents_content (env : CompileEnv) (p : PlacementResult) : String :=
  String.intercalate "\n" (generate_agents_sections env p)

/-- Directory names excluded from orphan detection. -/
def skipDirs : List String :=
  [".git", ".apm", "node_modules", "__pycache__", ".pytest_cache", "apm_modules"]

/-- `_find_orphaned_agents_files`: every pre-existing `AGENTS.md` outside
the skip directories that the current run did not generate. -/
def find_orphaned_agents_files (env : CompileEnv) (generatedPaths : List DirPath) :
    List DirPath :=
  env.agents_files.filter (fun f =>
    !(f.any (fun part => skipDirs.contains part)) && !(generatedPaths.contains f))

/-- `_generate_orphan_warnings`: one message naming the orphan, or one
aggregated message naming the first five and counting the rest. -/
def generate_orphan_warnings (orphans : List DirPath) : List String :=
  match orphans with
  | [] => []
  | [f] =>
    ["Orphaned AGENTS.md found: " ++ pathStr f ++ " - run \x27apm compile --clean\x27 to remove"]
  | _ :: _ :: _ =>
    let fileList := (orphans.take 5).map (fun f => "  • " ++ pathStr f)
    let fileList :=
      if 5 < orphans.length then
        fileList ++ ["  • ...and " ++ toString (orphans.length - 5) ++ " more"]
      else fileList
    let filesText := String.intercalate "\n" fileList
    ["Found " ++ toString orphans.length ++ " orphaned AGENTS.md files:\n" ++ filesText
      ++ "\n  Run \x27apm compile --clean\x27 to remove orphaned files"]

/-- Status messages of `_cleanup_orphaned_files` (the embedding's
filesystem always lets `unlink` succeed). -/
def cleanup_orphaned_files (orphans : List DirPath) (dryRun : Bool) : List String :=
  match orphans with
  | [] => []
  | _ :: _ =>
    if dryRun then
      ("🧹 Would clean up " ++ toString orphans.length ++ " orphaned AGENTS.md files")
        :: orphans.map (fun f => "  • " ++ pathStr f)
    else
      ("🧹 Cleaning up " ++ toString orphans.length ++ " orphaned AGENTS.md files")
        :: orphans.map (fun f => "  ✓ Removed " ++ pathStr f)

/-- Files `_cleanup_orphaned_files` unlinks from disk. -/
def cleanup_deleted_files (orphans : List DirPath) (dryRun : Bool) : List DirPath :=
  if dryRun then [] else orphans

/-- `_validate_coverage`: warn about instructions present in the input but
in no placement (sets embedded as first-occurrence dedup lists). -/
def validate_coverage (placements : List PlacementResult)
    (allInstructions : List Instruction) : List String :=
  let placed := (placements.flatMap (fun p => p.instructions.map (fun i => pathStr i.file_path))).dedup
  let allPaths := (allInstructions.map (fun i => pathStr i.file_path)).dedup
  let missing := allPaths.filter (fun s => !(placed.contains s))
  match missing with
  | [] => []
  | _ :: _ => ["Instructions not placed in any AGENTS.md: " ++ String.intercalate ", " missing]

/-- `_is_instruction_relevant`: a global instruction is always relevant;
otherwise the working directory must be catalogued and have at least one
file matching the pattern. -/
def is_instruction_relevant (env : CompileEnv) (instr : Instruction) (dir : DirPath) : Bool :=
  if instr.apply_to == "" then true
  else
    match catalogFind env dir with
    | some d => decide (0 < match_count env d instr.apply_to)
    | none => false

/-- Context loads of `analyze_context_inheritance`: total and relevant
instruction counts along the inheritance chain of a directory. -/
def contextLoad (env : CompileEnv) (placementMap : List (DirPath × List Instruction))
    (dir : DirPath) : Nat × Nat :=
  (get_inheritance_chain dir).foldl (fun acc c =>
    match (placementMap.find? (fun e => e.1 == c)).map (fun e => e.2) with
    | none => acc
    | some instrs =>
      (acc.1 + instrs.length,
       acc.2 + (instrs.filter (fun i => is_instruction_relevant env i dir)).length)) (0, 0)

/-- `InheritanceAnalysis.get_efficiency_ratio`. -/
def efficiencyRatio (total relevant : Nat) : Frac :=
  if total == 0 then fone else ratioNat relevant total

/-- `OptimizationStats` (`output/models.py`) with the source's defaults. -/
structure OptimizationStats where
  average_context_efficiency : Frac
  pollution_improvement : Option Frac := none
  baseline_efficiency : Option Frac := none
  placement_accuracy : Option Frac := none
  generation_time_ms : Option Int := none
  total_agents_files : Nat := 0
  directories_analyzed : Nat := 0

/-- `get_optimization_stats`: mean context-efficiency ratio over the
catalogued directories (a sum of exact ratios, so the iteration order of
the source's `set` is immaterial). -/
def get_optimization_stats (env : CompileEnv)
    (placementMap : List (DirPath × List Instruction)) : OptimizationStats :=
  match placementMap with
  | [] =>
    { average_context_efficiency := fzero
      total_agents_files := 0
      directories_analyzed := env.catalog.length }
  | _ :: _ =>
    let scores := (env.catalog.filter (fun d => 0 < d.files.length)).map (fun d =>
      let tl := contextLoad env placementMap d.directory
      efficiencyRatio tl.1 tl.2)
    let avg :=
      match scores with
      | [] => fzero
      | _ :: _ => fdivNat (scores.foldl fadd fzero) scores.length
    { average_context_efficiency := avg
      total_agents_files := placementMap.length
      directories_analyzed := env.catalog.length }

/-- `_compile_distributed_stats`: counting statistics merged with the
optimizer statistics. -/
def compile_distributed_stats (env : CompileEnv) (placements : List PlacementResult)
    (prim : PrimitiveCollection) : List (String × Option Frac) :=
  let totalInstructions := (placements.map (fun p => p.instructions.length)).sum
  let totalPatterns := (placements.map (fun p => p.coverage_patterns.length)).sum
  let placementMap := placements.map (fun p => (p.agents_path.dropLast, p.instructions))
  let os := get_optimization_stats env placementMap
  [("agents_files_generated", some (Frac.ofNat placements.length)),
   ("total_instructions_placed", some (Frac.ofNat totalInstructions)),
   ("total_patterns_covered", some (Frac.ofNat totalPatterns)),
   ("primitives_found", some (Frac.ofNat (pcCount prim))),
   ("chatmodes", some (Frac.ofNat prim.chatmodes)),
   ("instructions", some (Frac.ofNat prim.instructions.length)),
   ("contexts", some (Frac.ofNat prim.contexts)),
   ("average_context_efficiency", some os.average_context_efficiency),
   ("pollution_improvement", os.pollution_improvement),
   ("baseline_efficiency", os.baseline_efficiency),
   ("placement_accuracy", os.placement_accuracy),
   ("generation_time_ms", os.generation_time_ms.map Frac.ofInt),
   ("total_agents_files", some (Frac.ofNat os.total_agents_files)),
   ("directories_analyzed", some (Frac.ofNat os.directories_analyzed))]

/-- Warning block of phase 4 of `compile_distributed` (orphan report plus,
when cleaning on a non-dry run, the cleanup status messages). -/
def orphanPhaseWarnings (cfg : CompileConfig) (orphans : List DirPath) : List String :=
  match orphans with
  | [] => []
  | _ :: _ =>
    generate_orphan_warnings orphans ++
      (if !cfg.dry_run && cfg.clean_orphaned then cleanup_orphaned_files orphans false else [])

/-- `compile_distributed`: the full pipeline inside the `try` block, or the
catch-all failure result when an internal phase raises.  (`analyze_directory_structure`,
phase 1 of the source, is omitted: its `DirectoryMap` result is passed to
`determine_agents_placement`, which never reads it.) -/
def compile_distributed (env : CompileEnv) (prim : PrimitiveCollection)
    (cfg : CompileConfig) : CompilationResult :=
  match env.failure with
  | some e =>
    { success := false
      placements := []
      content_map := []
      warnings := []
      errors := ["Distributed compilation failed: " ++ e]
      stats := [] }
  | none =>
    let placementMap := determine_agents_placement env prim.instructions cfg.min_instructions_per_file
    let placements := generate_distributed_agents_files env cfg placementMap
    let generatedPaths := placements.map (fun p => p.agents_path)
    let orphans := find_orphaned_agents_files env generatedPaths
    let warnings := orphanPhaseWarnings cfg orphans ++ validate_coverage placements prim.instructions
    let errors : List String := []
    { success := errors.isEmpty
      placements := placements
      content_map := placements.map (fun p => (p.agents_path, generate_agents_content env p))
      warnings := warnings
      errors := errors
      stats := compile_distributed_stats env placements prim }

/-- Files unlinked from disk by a `compile_distributed` run (phase 4
performs the unlinks only when `clean_orphaned` is set and the run is not
a dry run). -/
def compile_deleted_files (env : CompileEnv) (prim : PrimitiveCollection)
    (cfg : CompileConfig) : List DirPath :=
  match env.failure with
  | some _ => []
  | none =>
    let placementMap := determine_agents_placement env prim.instructions cfg.min_instructions_per_file
    let placements := generate_distributed_agents_files env cfg placementMap
    let orphans := find_orphaned_agents_files env (placements.map (fun p => p.agents_path))
    match orphans with
    | [] => []
    | _ :: _ =>
      if !cfg.dry_run && cfg.clean_orphaned then cleanup_deleted_files orphans false else []

/-!
Lemmas about the minimal covering ancestor.
-/

theorem foldl_min_le_init (l : List DirPath) (acc : Nat) :
    l.foldl (fun m e => Nat.min m e.length) acc ≤ acc := by
  induction l generalizing acc with
  | nil => exact Nat.le_refl acc
  | cons x xs ih =>
    exact Nat.le_trans (ih (Nat.min acc x.length)) (Nat.min_le_left acc x.length)

theorem foldl_min_le_mem {e : DirPath} (l : List DirPath) (acc : Nat) (he : e ∈ l) :
    l.foldl (fun m e => Nat.min m e.length) acc ≤ e.length := by
  induction l generalizing acc with
  | nil => cases he
  | cons x xs ih =>
    rcases List.mem_cons.mp he with h | h
    · subst h
      exact Nat.le_trans (foldl_min_le_init xs (Nat.min acc e.length))
        (Nat.min_le_right acc e.length)
    · exact ih (Nat.min acc x.length) h

theorem minDepthList_le {d : DirPath} {ds : List DirPath} (hd : d ∈ ds) :
    minDepthList ds ≤ d.length := by
  cases ds with
  | nil => cases hd
  | cons d0 rest =>
    rcases List.mem_cons.mp hd with h | h
    · subst h
      exact foldl_min_le_init rest d.length
    · exact foldl_min_le_mem rest d0.length h

theorem allSameAt_eq_head {d0 : DirPath} {rest : List DirPath} {d : DirPath} {i : Nat}
    (hall : allSameAt (d0 :: rest) i = true) (hd : d ∈ d0 :: rest) :
    d.get? i = d0.get? i := by
  rcases List.mem_cons.mp hd with h | h
  · subst h; rfl
  · have := List.all_eq_true.mp hall d h
    exact beq_iff_eq.mp this

theorem commonPartsFrom_isPrefixOfDrop {ds : List DirPath} {d : DirPath} (hd : d ∈ ds) :
    ∀ fuel i, i + fuel ≤ minDepthList ds → commonPartsFrom ds i fuel <+: d.drop i := by
  intro fuel
  induction fuel with
  | zero => intro i _; exact List.nil_prefix
  | succ fuel ih =>
    intro i hle
    by_cases hall : allSameAt ds i = true
    · cases ds with
      | nil => cases hd
      | cons d0 rest =>
        have hid0 : i < d0.length :=
          Nat.lt_of_lt_of_le (Nat.lt_of_lt_of_le (Nat.lt_succ_of_le (Nat.le_add_right i fuel))
            (by omega)) (minDepthList_le (List.mem_cons_self d0 rest))
        have hid : i < d.length :=
          Nat.lt_of_lt_of_le (by omega) (minDepthList_le hd)
        have h0 : d0.get? i = some (d0.get ⟨i, hid0⟩) := List.get?_eq_get hid0
        have hdget : d.get? i = d0.get? i := allSameAt_eq_head hall hd
        have hdrop : d.drop i = d.get ⟨i, hid⟩ :: d.drop (i + 1) := by
          rw [List.drop_eq_getElem_cons hid]
          simp [List.get_eq_getElem]
        have hval : d.get ⟨i, hid⟩ = d0.get ⟨i, hid0⟩ := by
          have : d.get? i = some (d.get ⟨i, hid⟩) := List.get?_eq_get hid
          rw [hdget, h0] at this
          exact (Option.some_inj.mp this).symm
        show commonPartsFrom (d0 :: rest) i (fuel + 1) <+: d.drop i
        rw [hdrop]
        have hred : commonPartsFrom (d0 :: rest) i (fuel + 1) =
            d0.get ⟨i, hid0⟩ :: commonPartsFrom (d0 :: rest) (i + 1) fuel := by
          simp only [commonPartsFrom, hall, if_true, h0]
        rw [hred, hval]
        exact List.cons_prefix_cons.mpr ⟨rfl, ih (i + 1) (by omega)⟩
    · have hred : commonPartsFrom ds i (fuel + 1) = [] := by
        unfold commonPartsFrom
        rw [if_neg hall]
      rw [hred]
      exact List.nil_prefix

theorem commonParts_isPrefixOfMem {ds : List DirPath} {d : DirPath} (hd : d ∈ ds) :
    commonParts ds <+: d := by
  have := commonPartsFrom_isPrefixOfDrop hd (minDepthList ds) 0 (by omega)
  simpa [commonParts] using this

theorem find_minimal_coverage_placement_isSome {matching : List DirPath}
    (h : matching ≠ []) : ∃ p, find_minimal_coverage_placement matching = some p := by
  match matching with
  | [d] => exact ⟨d, rfl⟩
  | a :: b :: rest => exact ⟨commonParts (a :: b :: rest), rfl⟩

theorem find_minimal_coverage_placement_covers {matching : List DirPath} {p : DirPath}
    (h : find_minimal_coverage_placement matching = some p) : ∀ d ∈ matching, p <+: d := by
  match matching with
  | [] => cases h
  | [d0] =>
    intro d hd
    have hp : p = d0 := by
      have : some d0 = some p := h ▸ rfl
      exact (Option.some_inj.mp this).symm
    rcases List.mem_singleton.mp hd with rfl
    rw [hp]
  | a :: b :: rest =>
    intro d hd
    have hp : p = commonParts (a :: b :: rest) := by
      have : some (commonParts (a :: b :: rest)) = some p := h ▸ rfl
      exact (Option.some_inj.mp this).symm
    rw [hp]
    exact commonParts_isPrefixOfMem hd

/-!
Coverage lemmas for the three placement strategies.
-/

theorem pyMaxBy_mem {α : Type} (key : α → Frac) (a : α) (l : List α) :
    pyMaxBy key a l ∈ a :: l := by
  induction l generalizing a with
  | nil => exact List.mem_singleton.mpr rfl
  | cons x xs ih =>
    have hstep : pyMaxBy key a (x :: xs) =
        pyMaxBy key (if flt (key a) (key x) then x else a) xs := rfl
    rw [hstep]
    have := ih (if flt (key a) (key x) then x else a)
    rcases List.mem_cons.mp this with h | h
    · rw [h]
      by_cases hc : flt (key a) (key x) = true
      · simp [hc]
      · simp [hc]
    · exact List.mem_cons_of_mem a (List.mem_cons_of_mem x h)

theorem coverage_filter_covers {matching : List DirPath} {c : PlacementCandidate}
    (hc : (calculate_hierarchical_coverage [c.directory] matching == matching) = true) :
    ∀ d ∈ matching, c.directory <+: d := by
  intro d hd
  have heq : calculate_hierarchical_coverage [c.directory] matching = matching :=
    beq_iff_eq.mp hc
  have hall := List.filter_eq_self.mp heq d hd
  have : is_hierarchically_covered d c.directory = true := by
    simpa [calculate_hierarchical_coverage] using hall
  exact is_hierarchically_covered_iff.mp this

theorem optimize_single_point_placement_covers (env : CompileEnv) (matching : List DirPath)
    (pattern : String) (hne : matching ≠ []) :
    ∀ d ∈ matching, ∃ p ∈ optimize_single_point_placement env matching pattern, p <+: d := by
  intro d hd
  cases hcand : generate_all_candidates env matching pattern with
  | nil =>
    refine ⟨[], ?_, List.nil_prefix⟩
    unfold optimize_single_point_placement
    simp only [hcand]
    exact List.mem_singleton.mpr rfl
  | cons c0 rest =>
    cases hcov : (c0 :: rest).filter (fun c =>
        calculate_hierarchical_coverage [c.directory] matching == matching) with
    | nil =>
      obtain ⟨p, hp⟩ := find_minimal_coverage_placement_isSome hne
      refine ⟨p, ?_, find_minimal_coverage_placement_covers hp d hd⟩
      unfold optimize_single_point_placement
      simp only [hcand, hcov, hp]
      exact List.mem_singleton.mpr rfl
    | cons d0 drest =>
      refine ⟨(pyMaxBy (fun c => fsub c.coverage_efficiency c.pollution_score) d0 drest).directory,
        ?_, ?_⟩
      · unfold optimize_single_point_placement
        simp only [hcand, hcov]
        exact List.mem_singleton.mpr rfl
      · have hbest : pyMaxBy (fun c => fsub c.coverage_efficiency c.pollution_score) d0 drest
            ∈ d0 :: drest := pyMaxBy_mem _ d0 drest
        have hmemf : pyMaxBy (fun c => fsub c.coverage_efficiency c.pollution_score) d0 drest
            ∈ (c0 :: rest).filter (fun c =>
              calculate_hierarchical_coverage [c.directory] matching == matching) := by
          rw [hcov]
          exact hbest
        have hpred := (List.mem_filter.mp hmemf).2
        exact coverage_filter_covers hpred d hd

theorem optimize_selective_placement_eq (env : CompileEnv) (matching : List DirPath)
    (pattern : String) (hne : matching ≠ []) :
    ∃ p, find_minimal_coverage_placement matching = some p ∧
      optimize_selective_placement env matching pattern = [p] := by
  obtain ⟨p, hp⟩ := find_minimal_coverage_placement_isSome hne
  refine ⟨p, hp, ?_⟩
  unfold optimize_selective_placement
  rw [hp]

theorem solve_placements_eq (env : CompileEnv) (instr : Instruction) (m0 : DirPath)
    (mrest : List DirPath)
    (hm : find_matching_directories env instr.apply_to = m0 :: mrest) :
    (solve_placement_optimization env instr).placements =
      (if flt (calculate_distribution_score env (m0 :: mrest)) LOW_DISTRIBUTION_THRESHOLD then
        optimize_single_point_placement env (m0 :: mrest) instr.apply_to
      else if flt HIGH_DISTRIBUTION_THRESHOLD (calculate_distribution_score env (m0 :: mrest)) then
        optimize_distributed_placement env (m0 :: mrest) instr.apply_to
      else optimize_selective_placement env (m0 :: mrest) instr.apply_to) := by
  simp only [solve_placement_optimization, hm]
  by_cases hlow : flt (calculate_distribution_score env (m0 :: mrest))
      LOW_DISTRIBUTION_THRESHOLD = true
  · simp [hlow]
  · by_cases hhigh : flt HIGH_DISTRIBUTION_THRESHOLD
        (calculate_distribution_score env (m0 :: mrest)) = true
    · simp [hlow, hhigh]
    · simp [hlow, hhigh]

theorem solve_strategy_eq (env : CompileEnv) (instr : Instruction) (m0 : DirPath)
    (mrest : List DirPath)
    (hm : find_matching_directories env instr.apply_to = m0 :: mrest) :
    (solve_placement_optimization env instr).decision.strategy =
      (if flt (calculate_distribution_score env (m0 :: mrest)) LOW_DISTRIBUTION_THRESHOLD then
        PlacementStrategy.singlePoint
      else if flt HIGH_DISTRIBUTION_THRESHOLD (calculate_distribution_score env (m0 :: mrest)) then
        PlacementStrategy.distributed
      else PlacementStrategy.selectiveMulti) := by
  simp only [solve_placement_optimization, hm]
  by_cases hlow : flt (calculate_distribution_score env (m0 :: mrest))
      LOW_DISTRIBUTION_THRESHOLD = true
  · simp [hlow]
  · by_cases hhigh : flt HIGH_DISTRIBUTION_THRESHOLD
        (calculate_distribution_score env (m0 :: mrest)) = true
    · simp [hlow, hhigh]
    · simp [hlow, hhigh]

theorem solve_placement_optimization_covers (env : CompileEnv) (instr : Instruction) :
    ∀ d ∈ find_matching_directories env instr.apply_to,
      ∃ p ∈ (solve_placement_optimization env instr).placements, p <+: d := by
  intro d hd
  cases hm : find_matching_directories env instr.apply_to with
  | nil => rw [hm] at hd; cases hd
  | cons m0 mrest =>
    rw [hm] at hd
    have hne : (m0 :: mrest : List DirPath) ≠ [] := List.cons_ne_nil m0 mrest
    rw [solve_placements_eq env instr m0 mrest hm]
    by_cases hlow : flt (calculate_distribution_score env (m0 :: mrest))
        LOW_DISTRIBUTION_THRESHOLD = true
    · simpa [hlow] using optimize_single_point_placement_covers env (m0 :: mrest)
        instr.apply_to hne d hd
    · by_cases hhigh : flt HIGH_DISTRIBUTION_THRESHOLD
          (calculate_distribution_score env (m0 :: mrest)) = true
      · refine ⟨[], ?_, List.nil_prefix⟩
        simp [hlow, hhigh, optimize_distributed_placement]
      · obtain ⟨p, hp, heq⟩ := optimize_selective_placement_eq env (m0 :: mrest)
          instr.apply_to hne
        refine ⟨p, ?_, find_minimal_coverage_placement_covers hp d hd⟩
        simp [hlow, hhigh, heq]

/-!
Lemmas about the construction of the placement map.
-/

theorem dictAppend_preserve {m : List (DirPath × List Instruction)} {k : DirPath}
    {l : List Instruction} {v' : Instruction} (k2 : DirPath) (v : Instruction)
    (h : (k, l) ∈ m) (hv : v' ∈ l) :
    ∃ l', (k, l') ∈ dictAppend m k2 v ∧ v' ∈ l' := by
  unfold dictAppend
  by_cases hany : m.any (fun e => e.1 == k2) = true
  · rw [if_pos hany]
    by_cases hk : ((k, l).1 == k2) = true
    · refine ⟨l ++ [v], ?_, List.mem_append_left _ hv⟩
      have := List.mem_map_of_mem
        (fun e : DirPath × List Instruction => if e.1 == k2 then (e.1, e.2 ++ [v]) else e) h
      simpa [hk] using this
    · refine ⟨l, ?_, hv⟩
      have := List.mem_map_of_mem
        (fun e : DirPath × List Instruction => if e.1 == k2 then (e.1, e.2 ++ [v]) else e) h
      simpa [hk] using this
  · rw [if_neg hany]
    exact ⟨l, List.mem_append_left _ h, hv⟩

theorem dictAppend_adds (m : List (DirPath × List Instruction)) (k : DirPath)
    (v : Instruction) :
    ∃ l', (k, l') ∈ dictAppend m k v ∧ v ∈ l' := by
  unfold dictAppend
  by_cases hany : m.any (fun e => e.1 == k) = true
  · rw [if_pos hany]
    obtain ⟨e, he, hek⟩ := List.any_eq_true.mp hany
    have hek' : e.1 = k := beq_iff_eq.mp hek
    refine ⟨e.2 ++ [v], ?_, List.mem_append_right _ (List.mem_singleton.mpr rfl)⟩
    have := List.mem_map_of_mem
      (fun e : DirPath × List Instruction => if e.1 == k then (e.1, e.2 ++ [v]) else e) he
    simpa [hek, hek'] using this
  · rw [if_neg hany]
    exact ⟨[v], List.mem_append_right _ (List.mem_singleton.mpr rfl),
      List.mem_singleton.mpr rfl⟩

/-- The membership invariant used to track one instruction through the
placement-map folds. -/
def MapHolds (k : DirPath) (v : Instruction) (m : List (DirPath × List Instruction)) : Prop :=
  ∃ l, (k, l) ∈ m ∧ v ∈ l

theorem mapHolds_dictAppend {k : DirPath} {v : Instruction}
    {m : List (DirPath × List Instruction)} (k2 : DirPath) (v2 : Instruction)
    (h : MapHolds k v m) : MapHolds k v (dictAppend m k2 v2) := by
  obtain ⟨l, hl, hv⟩ := h
  exact dictAppend_preserve k2 v2 hl hv

theorem mapHolds_foldl_dictAppend {k : DirPath} {v : Instruction} (ps : List DirPath)
    (instr : Instruction) {m : List (DirPath × List Instruction)} (h : MapHolds k v m) :
    MapHolds k v (ps.foldl (fun m' p => dictAppend m' p instr) m) := by
  induction ps generalizing m with
  | nil => exact h
  | cons p ps ih => exact ih (mapHolds_dictAppend p instr h)

theorem foldl_dictAppend_adds {p : DirPath} (ps : List DirPath) (instr : Instruction)
    (m : List (DirPath × List Instruction)) (hp : p ∈ ps) :
    MapHolds p instr (ps.foldl (fun m' q => dictAppend m' q instr) m) := by
  induction ps generalizing m with
  | nil => cases hp
  | cons q qs ih =>
    rcases List.mem_cons.mp hp with h | h
    · subst h
      exact mapHolds_foldl_dictAppend qs instr
        (by obtain ⟨l, hl, hv⟩ := dictAppend_adds m p instr; exact ⟨l, hl, hv⟩)
    · exact ih (dictAppend m q instr) h

/-- One step of the fold in `optimize_instruction_placement`. -/
def placeStep (env : CompileEnv) (m : List (DirPath × List Instruction))
    (instr : Instruction) : List (DirPath × List Instruction) :=
  if instr.apply_to == "" then dictAppend m [] instr
  else (solve_placement_optimization env instr).placements.foldl
    (fun m' p => dictAppend m' p instr) m

theorem optimize_instruction_placement_eq_foldl (env : CompileEnv)
    (instructions : List Instruction) :
    optimize_instruction_placement env instructions = instructions.foldl (placeStep env) [] := rfl

theorem mapHolds_placeStep {k : DirPath} {v : Instruction} (env : CompileEnv)
    {m : List (DirPath × List Instruction)} (instr : Instruction) (h : MapHolds k v m) :
    MapHolds k v (placeStep env m instr) := by
  unfold placeStep
  by_cases hg : (instr.apply_to == "") = true
  · rw [if_pos hg]
    exact mapHolds_dictAppend [] instr h
  · rw [if_neg hg]
    exact mapHolds_foldl_dictAppend _ instr h

theorem mapHolds_foldl_placeStep {k : DirPath} {v : Instruction} (env : CompileEnv)
    (l : List Instruction) {m : List (DirPath × List Instruction)} (h : MapHolds k v m) :
    MapHolds k v (l.foldl (placeStep env) m) := by
  induction l generalizing m with
  | nil => exact h
  | cons x xs ih => exact ih (mapHolds_placeStep env x h)

theorem optimize_instruction_placement_holds (env : CompileEnv)
    (instructions : List Instruction) (instr : Instruction) {p : DirPath}
    (hin : instr ∈ instructions) (hglob : instr.apply_to ≠ "")
    (hp : p ∈ (solve_placement_optimization env instr).placements) :
    MapHolds p instr (optimize_instruction_placement env instructions) := by
  rw [optimize_instruction_placement_eq_foldl]
  have hg : (instr.apply_to == "") = false := by
    simpa using hglob
  have main : ∀ (l : List Instruction) (m : List (DirPath × List Instruction)),
      instr ∈ l → MapHolds p instr (l.foldl (placeStep env) m) := by
    intro l
    induction l with
    | nil => intro m h; cases h
    | cons x xs ih =>
      intro m h
      rcases List.mem_cons.mp h with hx | hx
      · subst hx
        apply mapHolds_foldl_placeStep env xs
        unfold placeStep
        rw [hg]
        simp only [Bool.false_eq_true, if_false]
        exact foldl_dictAppend_adds _ instr m hp
      · exact ih (placeStep env m x) hx
  exact main instructions [] hin

/-!
Substring lemmas for reasoning about warning messages.
-/

theorem infixAppendRight {α : Type} {s l1 : List α} (l2 : List α) (h : s <:+: l1) :
    s <:+: l1 ++ l2 := by
  obtain ⟨u, v, huv⟩ := h
  exact ⟨u, v ++ l2, by rw [← huv]; simp⟩

theorem infixAppendLeft {α : Type} {s l2 : List α} (l1 : List α) (h : s <:+: l2) :
    s <:+: l1 ++ l2 := by
  obtain ⟨u, v, huv⟩ := h
  exact ⟨l1 ++ u, v, by rw [← huv]; simp⟩

theorem infix_data_append_right {s a : String} (b : String) (h : s.data <:+: a.data) :
    s.data <:+: (a ++ b).data := by
  rw [String.data_append]
  exact infixAppendRight b.data h

theorem infix_data_append_left {s b : String} (a : String) (h : s.data <:+: b.data) :
    s.data <:+: (a ++ b).data := by
  rw [String.data_append]
  exact infixAppendLeft a.data h

theorem intercalate_go_acc_sub (s : String) :
    ∀ (xs : List String) (acc : String), acc.data <:+: (String.intercalate.go acc s xs).data := by
  intro xs
  induction xs with
  | nil => intro acc; exact List.infix_refl acc.data
  | cons y ys ih =>
    intro acc
    have hgo : String.intercalate.go acc s (y :: ys) =
        String.intercalate.go (acc ++ s ++ y) s ys := rfl
    rw [hgo]
    have hacc : acc.data <:+: (acc ++ s ++ y).data := by
      apply infix_data_append_right
      exact infix_data_append_right s (List.infix_refl acc.data)
    exact hacc.trans (ih (acc ++ s ++ y))

theorem intercalate_go_mem_sub (s : String) :
    ∀ (xs : List String) (acc x : String), x ∈ xs →
      x.data <:+: (String.intercalate.go acc s xs).data := by
  intro xs
  induction xs with
  | nil => intro acc x h; cases h
  | cons y ys ih =>
    intro acc x h
    have hgo : String.intercalate.go acc s (y :: ys) =
        String.intercalate.go (acc ++ s ++ y) s ys := rfl
    rw [hgo]
    rcases List.mem_cons.mp h with hx | hx
    · subst hx
      have hx0 : x.data <:+: (acc ++ s ++ x).data := by
        apply infix_data_append_left
        exact List.infix_refl x.data
      exact hx0.trans (intercalate_go_acc_sub s ys (acc ++ s ++ x))
    · exact ih (acc ++ s ++ y) x hx

theorem intercalate_mem_sub {x : String} {l : List String} (s : String) (h : x ∈ l) :
    x.data <:+: (String.intercalate s l).data := by
  cases l with
  | nil => cases h
  | cons a as =>
    have : String.intercalate s (a :: as) = String.intercalate.go a s as := rfl
    rw [this]
    rcases List.mem_cons.mp h with hx | hx
    · subst hx
      exact intercalate_go_acc_sub s as x
    · exact intercalate_go_mem_sub s as a x hx

/-!
Support lemmas for the no-match fallback.
-/

theorem no_match_count_zero {env : CompileEnv} {pattern : String}
    (h : find_matching_directories env pattern = []) :
    ∀ d ∈ env.catalog, match_count env d pattern = 0 := by
  intro d hd
  have hfil : env.catalog.filter (fun d => decide (0 < match_count env d pattern)) = [] :=
    List.map_eq_nil_iff.mp h
  have := List.filter_eq_nil_iff.mp hfil d hd
  simpa using this

theorem no_match_relevance_zero {env : CompileEnv} {pattern : String} (p : DirPath)
    (h : find_matching_directories env pattern = []) :
    (calculate_coverage_efficiency env p pattern).toRat = 0 := by
  unfold calculate_coverage_efficiency
  cases hfind : catalogFind env p with
  | none => exact toRat_fzero
  | some d =>
    have hd : d ∈ env.catalog := List.mem_of_find?_eq_some hfind
    have hz := no_match_count_zero h d hd
    show (get_relevance_score env d pattern).toRat = 0
    unfold get_relevance_score
    by_cases hlen : (d.files.length == 0) = true
    · rw [if_pos hlen]; exact toRat_fzero
    · rw [if_neg hlen, hz]
      simp [ratioNat, Frac.toRat]

theorem contains_eq_true_iff {α : Type} [BEq α] [LawfulBEq α] {l : List α} {a : α} :
    l.contains a = true ↔ a ∈ l := List.elem_iff

theorem extract_intended_spec (env : CompileEnv) (pattern : String) :
    extract_intended_directory_from_pattern env pattern =
      if pattern ≠ "" ∧ ¬(("**/").data <+: pattern.data) ∧ '/' ∈ pattern.data ∧
          '*' ∉ (firstSegment pattern).data ∧ firstSegment pattern ≠ "" ∧
          [firstSegment pattern] ∈ env.existing_dirs
      then some [firstSegment pattern] else none := by
  unfold extract_intended_directory_from_pattern
  by_cases h1 : pattern = ""
  · simp [h1]
  · by_cases h2 : ("**/").data <+: pattern.data
    · have h2' : List.isPrefixOf "**/".data pattern.data = true :=
        List.isPrefixOf_iff_prefix.mpr h2
      simp [h1, h2, h2']
    · have h2' : ¬ List.isPrefixOf "**/".data pattern.data = true := by
        intro hc
        exact h2 (List.isPrefixOf_iff_prefix.mp hc)
      by_cases h3 : '/' ∈ pattern.data
      · have h3' : pattern.data.contains '/' = true := contains_eq_true_iff.mpr h3
        by_cases h4 : '*' ∈ (firstSegment pattern).data
        · have h4' : (firstSegment pattern).data.contains '*' = true :=
            contains_eq_true_iff.mpr h4
          simp [h1, h2, h2', h3, h3', h4, h4']
        · have h4' : ¬ (firstSegment pattern).data.contains '*' = true := by
            intro hc
            exact h4 (contains_eq_true_iff.mp hc)
          by_cases h5 : firstSegment pattern = ""
          · simp [h1, h2, h2', h3, h3', h4', h5]
          · by_cases h6 : [firstSegment pattern] ∈ env.existing_dirs
            · have h6' : env.existing_dirs.contains [firstSegment pattern] = true :=
                contains_eq_true_iff.mpr h6
            
              simp [h1, h2, h2', h3, h3', h4, h4', h5, h6, h6']
            · have h6' : ¬ env.existing_dirs.contains [firstSegment pattern] = true := by
                intro hc
                exact h6 (contains_eq_true_iff.mp hc)
              simp [h1, h2, h2', h3, h3', h4, h4', h5, h6, h6']
      · have h3' : ¬ pattern.data.contains '/' = true := by
          intro hc
          exact h3 (contains_eq_true_iff.mp hc)
        simp [h1, h2, h2', h3, h3']

theorem solve_no_match (env : CompileEnv) (instr : Instruction)
    (h : find_matching_directories env instr.apply_to = []) :
    (solve_placement_optimization env instr).placements =
      [(extract_intended_directory_from_pattern env instr.apply_to).getD []] ∧
    (solve_placement_optimization env instr).warnings.length = 1 ∧
    (∀ w ∈ (solve_placement_optimization env instr).warnings,
      ("matches no files").data <:+: w.data) ∧
    (solve_placement_optimization env instr).decision.relevance_score.toRat = 0 := by
  have hres : solve_placement_optimization env instr =
      { placements := [(extract_intended_directory_from_pattern env instr.apply_to).getD []]
        warnings :=
          [match extract_intended_directory_from_pattern env instr.apply_to with
            | some d =>
              "Pattern \x27" ++ instr.apply_to
                ++ "\x27 matches no files - placing in intended directory \x27"
                ++ pathStr d ++ "\x27"
            | none =>
              "Pattern \x27" ++ instr.apply_to ++ "\x27 matches no files - placing at project root"]
        decision :=
          { pattern := instr.apply_to
            matching_directories := 0
            total_directories := env.catalog.length
            distribution_score := fzero
            strategy := PlacementStrategy.distributed
            placement_directories :=
              [(extract_intended_directory_from_pattern env instr.apply_to).getD []]
            reasoning :=
              match extract_intended_directory_from_pattern env instr.apply_to with
              | some d =>
                "No matching files found, placed in intended directory \x27" ++ pathStr d ++ "\x27"
              | none => "No matching files found, fallback to root placement"
            relevance_score :=
              primaryRelevance env
                [(extract_intended_directory_from_pattern env instr.apply_to).getD []]
                instr.apply_to } } := by
    simp only [solve_placement_optimization, h]
  refine ⟨by rw [hres], by rw [hres]; rfl, ?_, ?_⟩
  · intro w hw
    rw [hres] at hw
    rcases List.mem_singleton.mp hw with rfl
    cases hint : extract_intended_directory_from_pattern env instr.apply_to with
    | some d =>
      show ("matches no files").data <:+:
        ("Pattern \x27" ++ instr.apply_to
          ++ "\x27 matches no files - placing in intended directory \x27"
          ++ pathStr d ++ "\x27").data
      apply infix_data_append_right
      apply infix_data_append_right
      apply infix_data_append_left
      show ("matches no files").data <:+:
        ("\x27 matches no files - placing in intended directory \x27").data
      decide
    | none =>
      show ("matches no files").data <:+:
        ("Pattern \x27" ++ instr.apply_to
          ++ "\x27 matches no files - placing at project root").data
      apply infix_data_append_left
      show ("matches no files").data <:+:
        ("\x27 matches no files - placing at project root").data
      decide
  · rw [hres]
    show (primaryRelevance env
      [(extract_intended_directory_from_pattern env instr.apply_to).getD []]
      instr.apply_to).toRat = 0
    unfold primaryRelevance
    by_cases hc : inCatalog env
        ((extract_intended_directory_from_pattern env instr.apply_to).getD []) = true
    · simp only [hc, if_true]
      exact no_match_relevance_zero _ h
    · simp only [hc]
      simp [toRat_fzero]

theorem half_isPos : (⟨5, 10⟩ : Frac).IsPos := by
  show (0 : Nat) < 10
  decide

theorem calc_dist_singleton (env : CompileEnv) (m : DirPath)
    (hN : 0 < totalDirsWithFiles env) :
    (calculate_distribution_score env [m]).IsPos ∧
    (calculate_distribution_score env [m]).toRat = 1 / (totalDirsWithFiles env : ℚ) := by
  have h0 : (totalDirsWithFiles env == 0) = false := by
    simp
    omega
  have hred : calculate_distribution_score env [m] =
      fmul (ratioNat 1 (totalDirsWithFiles env))
        (fadd fone
          (fmul
            (fdivNat
              (fadd fzero
                (fmul (fsub (Frac.ofNat m.length) (fdivNat (Frac.ofNat m.length) 1))
                      (fsub (Frac.ofNat m.length) (fdivNat (Frac.ofNat m.length) 1)))) 1)
            ⟨5, 10⟩)) := by
    simp [calculate_distribution_score, h0]
  set N := totalDirsWithFiles env with hNdef
  set dd := Frac.ofNat m.length with hdd
  have hmean : (fdivNat dd 1).IsPos := fdivNat_isPos (ofNat_isPos m.length) Nat.one_pos
  have hsub : (fsub dd (fdivNat dd 1)).IsPos := fsub_isPos (ofNat_isPos m.length) hmean
  have hsq : (fmul (fsub dd (fdivNat dd 1)) (fsub dd (fdivNat dd 1))).IsPos :=
    fmul_isPos hsub hsub
  have hsum : (fadd fzero (fmul (fsub dd (fdivNat dd 1)) (fsub dd (fdivNat dd 1)))).IsPos :=
    fadd_isPos fzero_isPos hsq
  have hvar : (fdivNat (fadd fzero (fmul (fsub dd (fdivNat dd 1)) (fsub dd (fdivNat dd 1)))) 1).IsPos :=
    fdivNat_isPos hsum Nat.one_pos
  have hhm : (fmul (fdivNat (fadd fzero (fmul (fsub dd (fdivNat dd 1)) (fsub dd (fdivNat dd 1)))) 1) ⟨5, 10⟩).IsPos :=
    fmul_isPos hvar half_isPos
  have hdiv : (fadd fone (fmul (fdivNat (fadd fzero (fmul (fsub dd (fdivNat dd 1)) (fsub dd (fdivNat dd 1)))) 1) ⟨5, 10⟩)).IsPos :=
    fadd_isPos fone_isPos hhm
  constructor
  · rw [hred]
    exact fmul_isPos (ratioNat_isPos hN) hdiv
  · rw [hred]
    rw [toRat_fmul (ratioNat_isPos hN) hdiv, toRat_ratioNat,
      toRat_fadd fone_isPos hhm, toRat_fone,
      toRat_fmul hvar half_isPos,
      toRat_fdivNat hsum Nat.one_pos,
      toRat_fadd fzero_isPos hsq, toRat_fzero,
      toRat_fmul hsub hsub,
      toRat_fsub (ofNat_isPos m.length) hmean,
      toRat_fdivNat (ofNat_isPos m.length) Nat.one_pos]
    push_cast
    ring

theorem generate_all_candidates_singleton (env : CompileEnv) (m : DirPath) (pattern : String)
    (hm : inCatalog env m = true) :
    generate_all_candidates env [m] pattern = [mkCandidate env m pattern] := by
  obtain ⟨da, hda⟩ := Option.isSome_iff_exists.mp hm
  simp [generate_all_candidates, sortPaths, List.insertionSort, List.orderedInsert, hda]

theorem optimize_single_point_singleton (env : CompileEnv) (m : DirPath) (pattern : String)
    (hm : inCatalog env m = true) :
    optimize_single_point_placement env [m] pattern = [m] := by
  have hcand := generate_all_candidates_singleton env m pattern hm
  have hpred : (calculate_hierarchical_coverage [(mkCandidate env m pattern).directory] [m]
      == [m]) = true := by
    have hdir : (mkCandidate env m pattern).directory = m := rfl
    rw [hdir]
    have : calculate_hierarchical_coverage [m] [m] = [m] := by
      simp [calculate_hierarchical_coverage, is_hierarchically_covered_self]
    rw [this]
    exact beq_self_eq_true [m]
  have hfil : ([mkCandidate env m pattern]).filter (fun c =>
      calculate_hierarchical_coverage [c.directory] [m] == [m]) = [mkCandidate env m pattern] :=
    List.filter_eq_self.mpr (by
      intro c hc
      rcases List.mem_singleton.mp hc with rfl
      exact hpred)
  unfold optimize_single_point_placement
  simp only [hcand, hfil]
  rfl

theorem find_matching_mem_catalog {env : CompileEnv} {pattern : String} {p : DirPath}
    (h : p ∈ find_matching_directories env pattern) : inCatalog env p = true := by
  unfold find_matching_directories at h
  obtain ⟨d, hd, hdp⟩ := List.mem_map.mp h
  have hd' : d ∈ env.catalog := (List.mem_filter.mp hd).1
  unfold inCatalog catalogFind
  rw [Option.isSome_iff_exists]
  have hfind : (env.catalog.find? (fun d => d.directory == p)).isSome := by
    apply List.find?_isSome.mpr
    exact ⟨d, hd', by rw [hdp]; exact beq_self_eq_true p⟩
  exact Option.isSome_iff_exists.mp hfind

theorem low_threshold_isPos : LOW_DISTRIBUTION_THRESHOLD.IsPos := by
  show (0 : Nat) < 10
  decide

theorem low_threshold_toRat : LOW_DISTRIBUTION_THRESHOLD.toRat = 3 / 10 := by
  norm_num [LOW_DISTRIBUTION_THRESHOLD, Frac.toRat]

theorem solve_singleton_routes_single_point (env : CompileEnv) (instr : Instruction)
    (m : DirPath) (hm : find_matching_directories env instr.apply_to = [m])
    (hN : 4 ≤ totalDirsWithFiles env) :
    (solve_placement_optimization env instr).decision.strategy = PlacementStrategy.singlePoint ∧
    (solve_placement_optimization env instr).placements = [m] := by
  have hN0 : 0 < totalDirsWithFiles env := by omega
  obtain ⟨hpos, hval⟩ := calc_dist_singleton env m hN0
  have hlow : flt (calculate_distribution_score env [m]) LOW_DISTRIBUTION_THRESHOLD = true := by
    rw [flt_iff hpos low_threshold_isPos, hval, low_threshold_toRat]
    have hN4 : (4 : ℚ) ≤ (totalDirsWithFiles env : ℚ) := by exact_mod_cast hN
    have h14 : 1 / (totalDirsWithFiles env : ℚ) ≤ 1 / 4 := by
      apply one_div_le_one_div_of_le
      · norm_num
      · exact hN4
    linarith
  have hincat : inCatalog env m = true :=
    find_matching_mem_catalog (by rw [hm]; exact List.mem_singleton.mpr rfl)
  constructor
  · rw [solve_strategy_eq env instr m [] hm]
    simp [hlow]
  · rw [solve_placements_eq env instr m [] hm]
    simp [hlow, optimize_single_point_singleton env m instr.apply_to hincat]

/-!
Lemmas about candidate scores.
-/

theorem fifth_isPos : (⟨2, 10⟩ : Frac).IsPos := by
  show (0 : Nat) < 10
  decide

theorem pollution_weight_isPos : POLLUTION_MINIMIZATION_WEIGHT.IsPos := by
  show (0 : Nat) < 10
  decide

theorem maintenance_weight_isPos : MAINTENANCE_LOCALITY_WEIGHT.IsPos := by
  show (0 : Nat) < 10
  decide

theorem pollution_weight_toRat : POLLUTION_MINIMIZATION_WEIGHT.toRat = 8 / 10 := by
  norm_num [POLLUTION_MINIMIZATION_WEIGHT, Frac.toRat]

theorem maintenance_weight_toRat : MAINTENANCE_LOCALITY_WEIGHT.toRat = 3 / 10 := by
  norm_num [MAINTENANCE_LOCALITY_WEIGHT, Frac.toRat]

theorem get_relevance_score_isPos (env : CompileEnv) (d : DirectoryAnalysis)
    (pattern : String) : (get_relevance_score env d pattern).IsPos := by
  unfold get_relevance_score
  by_cases h : (d.files.length == 0) = true
  · rw [if_pos h]
    exact fzero_isPos
  · rw [if_neg h]
    apply ratioNat_isPos
    simp only [beq_iff_eq] at h
    omega

theorem calculate_coverage_efficiency_isPos (env : CompileEnv) (p : DirPath)
    (pattern : String) : (calculate_coverage_efficiency env p pattern).IsPos := by
  unfold calculate_coverage_efficiency
  cases catalogFind env p with
  | some d => exact get_relevance_score_isPos env d pattern
  | none => exact fzero_isPos

theorem calculate_inheritance_pollution_isPos (env : CompileEnv) (p : DirPath)
    (pattern : String) : (calculate_inheritance_pollution env p pattern).IsPos := by
  unfold calculate_inheritance_pollution
  generalize (env.catalog.filter
    (fun c => c.directory.length == p.length + 1 && c.directory.dropLast == p)) = children
  have main : ∀ (l : List DirectoryAnalysis) (acc : Frac), acc.IsPos →
      (l.foldl (fun acc c =>
        let rel := get_relevance_score env c pattern
        if fisZero rel then fadd acc ⟨5, 10⟩
        else if flt rel ⟨1, 10⟩ then fadd acc ⟨2, 10⟩
        else acc) acc).IsPos := by
    intro l
    induction l with
    | nil => intro acc h; exact h
    | cons c cs ih =>
      intro acc h
      apply ih
      by_cases h1 : fisZero (get_relevance_score env c pattern) = true
      · simpa [h1] using fadd_isPos h half_isPos
      · by_cases h2 : flt (get_relevance_score env c pattern) ⟨1, 10⟩ = true
        · simpa [h1, h2] using fadd_isPos h fifth_isPos
        · simpa [h1, h2] using h
  exact main children fzero fzero_isPos

theorem calculate_maintenance_locality_isPos (env : CompileEnv) (p : DirPath)
    (pattern : String) : (calculate_maintenance_locality env p pattern).IsPos := by
  unfold calculate_maintenance_locality
  cases catalogFind env p with
  | none => exact fzero_isPos
  | some d =>
    by_cases h : (d.files.length == 0) = true
    · simp only [h, if_true]
      exact fzero_isPos
    · simp only [h, Bool.false_eq_true, if_false]
      unfold fmin
      by_cases h2 : fle fone (ratioNat (match_count env d pattern) d.files.length) = true
      · simp only [h2, if_true]
        exact fone_isPos
      · simp only [h2, Bool.false_eq_true, if_false]
        apply ratioNat_isPos
        simp only [beq_iff_eq] at h
        omega

theorem depthPenalty_isPos (p : DirPath) : (depthPenalty p).IsPos := by
  unfold depthPenalty fmax
  by_cases h : fle (⟨(p.length : Int) - 3, 10⟩ : Frac) fzero = true
  · simp only [h, if_true]
    exact fzero_isPos
  · simp only [h, Bool.false_eq_true, if_false]
    show (0 : Nat) < 10
    decide

theorem match_count_le (env : CompileEnv) (d : DirectoryAnalysis) (pattern : String) :
    match_count env d pattern ≤ d.files.length :=
  List.length_filter_le _ _

theorem maintenance_toRat_eq_coverage (env : CompileEnv) (p : DirPath) (pattern : String) :
    (calculate_maintenance_locality env p pattern).toRat =
      (calculate_coverage_efficiency env p pattern).toRat := by
  unfold calculate_maintenance_locality calculate_coverage_efficiency
  cases catalogFind env p with
  | none => rfl
  | some d =>
    show (if (d.files.length == 0) = true then fzero
      else fmin fone (ratioNat (match_count env d pattern) d.files.length)).toRat =
      (get_relevance_score env d pattern).toRat
    unfold get_relevance_score
    by_cases h : (d.files.length == 0) = true
    · rw [if_pos h, if_pos h]
    · rw [if_neg h, if_neg h]
      have hlen : 0 < d.files.length := by
        simp only [beq_iff_eq] at h
        omega
      unfold fmin
      by_cases h2 : fle fone (ratioNat (match_count env d pattern) d.files.length) = true
      · rw [if_pos h2]
        have hle : (d.files.length : Int) ≤ (match_count env d pattern : Int) := by
          have := of_decide_eq_true h2
          simpa [fone, ratioNat] using this
        have hge : match_count env d pattern ≤ d.files.length := match_count_le env d pattern
        have heq : match_count env d pattern = d.files.length := by omega
        rw [heq]
        have hne : ((d.files.length : ℚ)) ≠ 0 := by
          exact_mod_cast Nat.pos_iff_ne_zero.mp hlen
        simp [fone, ratioNat, Frac.toRat, div_self hne]
      · rw [if_neg h2]

theorem generate_all_candidates_shape {env : CompileEnv} {matching : List DirPath}
    {pattern : String} {c : PlacementCandidate}
    (hc : c ∈ generate_all_candidates env matching pattern) :
    ∃ p, c = mkCandidate env p pattern := by
  unfold generate_all_candidates at hc
  obtain ⟨p, _, hfp⟩ := List.mem_filterMap.mp hc
  cases hfind : catalogFind env p with
  | none => rw [hfind] at hfp; cases hfp
  | some d =>
    rw [hfind] at hfp
    exact ⟨p, (Option.some_inj.mp hfp).symm⟩

theorem mkCandidate_total_score_toRat (env : CompileEnv) (p : DirPath) (pattern : String) :
    (mkCandidate env p pattern).total_score.toRat =
      (mkCandidate env p pattern).coverage_efficiency.toRat * 1
        + (1 - (mkCandidate env p pattern).pollution_score.toRat) * (8 / 10)
        + (mkCandidate env p pattern).maintenance_locality.toRat * (3 / 10)
        - (depthPenalty p).toRat := by
  have hcov := calculate_coverage_efficiency_isPos env p pattern
  have hpoll := calculate_inheritance_pollution_isPos env p pattern
  have hmaint := calculate_maintenance_locality_isPos env p pattern
  have hdp := depthPenalty_isPos p
  have h1 : (fmul (calculate_coverage_efficiency env p pattern)
      COVERAGE_EFFICIENCY_WEIGHT).IsPos := fmul_isPos hcov fone_isPos
  have h2 : (fsub fone (calculate_pollution_minimization env p pattern)).IsPos :=
    fsub_isPos fone_isPos hpoll
  have h3 : (fmul (fsub fone (calculate_pollution_minimization env p pattern))
      POLLUTION_MINIMIZATION_WEIGHT).IsPos := fmul_isPos h2 pollution_weight_isPos
  have h4 : (fmul (calculate_maintenance_locality env p pattern)
      MAINTENANCE_LOCALITY_WEIGHT).IsPos := fmul_isPos hmaint maintenance_weight_isPos
  have h5 : (fadd (fmul (calculate_coverage_efficiency env p pattern)
      COVERAGE_EFFICIENCY_WEIGHT)
      (fmul (fsub fone (calculate_pollution_minimization env p pattern))
        POLLUTION_MINIMIZATION_WEIGHT)).IsPos := fadd_isPos h1 h3
  have h6 : (fadd (fadd (fmul (calculate_coverage_efficiency env p pattern)
      COVERAGE_EFFICIENCY_WEIGHT)
      (fmul (fsub fone (calculate_pollution_minimization env p pattern))
        POLLUTION_MINIMIZATION_WEIGHT))
      (fmul (calculate_maintenance_locality env p pattern)
        MAINTENANCE_LOCALITY_WEIGHT)).IsPos := fadd_isPos h5 h4
  show (fsub (fadd (fadd (fmul (calculate_coverage_efficiency env p pattern)
      COVERAGE_EFFICIENCY_WEIGHT)
      (fmul (fsub fone (calculate_pollution_minimization env p pattern))
        POLLUTION_MINIMIZATION_WEIGHT))
      (fmul (calculate_maintenance_locality env p pattern)
        MAINTENANCE_LOCALITY_WEIGHT)) (depthPenalty p)).toRat = _
  have hpoll' : (calculate_pollution_minimization env p pattern).IsPos := hpoll
  have hW1pos : COVERAGE_EFFICIENCY_WEIGHT.IsPos := fone_isPos
  have hW1 : COVERAGE_EFFICIENCY_WEIGHT.toRat = 1 := toRat_fone
  rw [toRat_fsub h6 hdp, toRat_fadd h5 h4, toRat_fadd h1 h3,
    toRat_fmul hcov hW1pos, toRat_fmul h2 pollution_weight_isPos,
    toRat_fmul hmaint maintenance_weight_isPos,
    toRat_fsub fone_isPos hpoll', toRat_fone,
    pollution_weight_toRat, maintenance_weight_toRat, hW1]
  rfl

/-!
Lemmas about the generated file content.
-/

theorem sectionPatterns_sorted (instrs : List Instruction) :
    List.Sorted strLeRel (sectionPatterns instrs) :=
  List.sorted_insertionSort strLeRel (distinctPatterns instrs)

theorem mem_sectionPatterns {instrs : List Instruction} {pat : String} :
    pat ∈ sectionPatterns instrs ↔ pat ≠ "" ∧ ∃ i ∈ instrs, i.apply_to = pat := by
  unfold sectionPatterns distinctPatterns
  rw [(List.perm_insertionSort strLeRel _).mem_iff, List.mem_dedup, List.mem_filterMap]
  constructor
  · rintro ⟨i, hi, hfi⟩
    by_cases h : (i.apply_to == "") = true
    · rw [if_pos h] at hfi; cases hfi
    · rw [if_neg h] at hfi
      obtain rfl := Option.some_inj.mp hfi
      exact ⟨by simpa using h, i, hi, rfl⟩
  · rintro ⟨hne, i, hi, rfl⟩
    refine ⟨i, hi, ?_⟩
    rw [if_neg (by simpa using hne)]

theorem sectionPatterns_nodup (instrs : List Instruction) :
    (sectionPatterns instrs).Nodup :=
  (List.perm_insertionSort strLeRel (distinctPatterns instrs)).nodup_iff.mpr
    (List.nodup_dedup _)

theorem instructionLines_of_blank (p : PlacementResult) (i : Instruction)
    (h : pyStrip i.content = "") : instructionLines p i = [] := by
  simp [instructionLines, h]

theorem flatMapCongr {α β : Type} {l : List α} {f g : α → List β}
    (h : ∀ a ∈ l, f a = g a) : l.flatMap f = l.flatMap g := by
  induction l with
  | nil => rfl
  | cons x xs ih =>
    simp only [List.flatMap_cons]
    rw [h x (List.mem_cons_self x xs), ih (fun a ha => h a (List.mem_cons_of_mem x ha))]

theorem distinctPatterns_filter_globals (instrs : List Instruction) :
    distinctPatterns (instrs.filter (fun i => !(i.apply_to == ""))) =
      distinctPatterns instrs := by
  unfold distinctPatterns
  congr 1
  induction instrs with
  | nil => rfl
  | cons i is ih =>
    by_cases h : (i.apply_to == "") = true
    · have hp : i.apply_to = "" := beq_iff_eq.mp h
      simp [List.filter_cons, List.filterMap_cons, h, hp]
      simpa using ih
    · have h' : (i.apply_to == "") = false := by simpa using h
      have hp : ¬ i.apply_to = "" := by simpa using h
      simp [List.filter_cons, List.filterMap_cons, h', hp]
      simpa using ih

theorem filter_pattern_globals (instrs : List Instruction) (pat : String) (hpat : pat ≠ "") :
    (instrs.filter (fun i => !(i.apply_to == ""))).filter (fun i => i.apply_to == pat) =
      instrs.filter (fun i => i.apply_to == pat) := by
  induction instrs with
  | nil => rfl
  | cons i is ih =>
    by_cases h : (i.apply_to == pat) = true
    · have hi : i.apply_to = pat := beq_iff_eq.mp h
      have hne : (i.apply_to == "") = false := by
        rw [hi]
        simpa using hpat
      simp only [List.filter_cons, h, hne, Bool.not_false, if_true]
      rw [ih]
    · by_cases hg : (i.apply_to == "") = true
      · simp only [List.filter_cons, h, hg, Bool.not_true]
        exact ih
      · simp only [List.filter_cons, h, hg, Bool.not_false, if_true]
        rw [ih]

theorem sectionLines_congr (p q : PlacementResult) (pat : String)
    (hinstr : p.instructions.filter (fun i => i.apply_to == pat) =
      q.instructions.filter (fun i => i.apply_to == pat))
    (hattr : p.source_attribution = q.source_attribution) :
    sectionLines p pat = sectionLines q pat := by
  unfold sectionLines
  rw [hinstr]
  congr 1
  congr 1
  apply flatMapCongr
  intro i _
  unfold instructionLines
  rw [hattr]

theorem sections_filter_globals (env : CompileEnv) (p : PlacementResult) :
    generate_agents_sections env (filterGlobals p) = generate_agents_sections env p := by
  unfold generate_agents_sections
  have hpats : sectionPatterns ((filterGlobals p).instructions) =
      sectionPatterns p.instructions := by
    unfold sectionPatterns
    show List.insertionSort strLeRel
      (distinctPatterns (p.instructions.filter (fun i => !(i.apply_to == "")))) = _
    rw [distinctPatterns_filter_globals]
  have hsrc : sourcesHeaderLines (filterGlobals p) = sourcesHeaderLines p := rfl
  have hbody : (sectionPatterns p.instructions).flatMap (sectionLines (filterGlobals p)) =
      (sectionPatterns p.instructions).flatMap (sectionLines p) := by
    apply flatMapCongr
    intro pat hpat
    have hne : pat ≠ "" := (mem_sectionPatterns.mp hpat).1
    apply sectionLines_congr
    · exact filter_pattern_globals p.instructions pat hne
    · rfl
  rw [hsrc, hpats, hbody]

/-!
Totality of `compile_distributed`.
-/

theorem compile_distributed_success_iff (env : CompileEnv) (prim : PrimitiveCollection)
    (cfg : CompileConfig) :
    (compile_distributed env prim cfg).success = true ↔
      (compile_distributed env prim cfg).errors = [] := by
  cases hf : env.failure with
  | some e => simp [compile_distributed, hf]
  | none => simp [compile_distributed, hf]

theorem compile_distributed_failure (env : CompileEnv) (prim : PrimitiveCollection)
    (cfg : CompileConfig) (e : String) (hf : env.failure = some e) :
    compile_distributed env prim cfg =
      { success := false
        placements := []
        content_map := []
        warnings := []
        errors := ["Distributed compilation failed: " ++ e]
        stats := [] } := by
  simp [compile_distributed, hf]

/-!
Lemmas about orphan reporting and cleanup.
-/

theorem pathStr_infix_bullet (f : DirPath) :
    (pathStr f).data <:+: ("  • " ++ pathStr f).data :=
  infix_data_append_left "  • " (List.infix_refl (pathStr f).data)

theorem orphan_warning_names_take5 (orphans : List DirPath) :
    ∀ f ∈ orphans.take 5, ∃ w ∈ generate_orphan_warnings orphans,
      (pathStr f).data <:+: w.data := by
  cases orphans with
  | nil => intro f hf; cases hf
  | cons a tail =>
    cases tail with
    | nil =>
      intro f hf
      have hfa : f = a := by simpa using hf
      subst hfa
      refine ⟨"Orphaned AGENTS.md found: " ++ pathStr f
        ++ " - run \x27apm compile --clean\x27 to remove",
        List.mem_singleton.mpr rfl, ?_⟩
      apply infix_data_append_right
      apply infix_data_append_left
      exact List.infix_refl (pathStr f).data
    | cons b rest =>
      intro f hf
      have hline : ("  • " ++ pathStr f) ∈ ((a :: b :: rest).take 5).map
          (fun g => "  • " ++ pathStr g) :=
        List.mem_map_of_mem (fun g => "  • " ++ pathStr g) hf
      have hline2 : ("  • " ++ pathStr f) ∈
          (if 5 < (a :: b :: rest : List DirPath).length then
            ((a :: b :: rest).take 5).map (fun g => "  • " ++ pathStr g)
              ++ ["  • ...and " ++ toString ((a :: b :: rest : List DirPath).length - 5) ++ " more"]
          else ((a :: b :: rest).take 5).map (fun g => "  • " ++ pathStr g)) := by
        by_cases h5 : 5 < (a :: b :: rest : List DirPath).length
        · rw [if_pos h5]
          exact List.mem_append_left _ hline
        · rw [if_neg h5]
          exact hline
      refine ⟨"Found " ++ toString (a :: b :: rest : List DirPath).length
          ++ " orphaned AGENTS.md files:\n"
          ++ String.intercalate "\n"
            (if 5 < (a :: b :: rest : List DirPath).length then
              ((a :: b :: rest).take 5).map (fun g => "  • " ++ pathStr g)
                ++ ["  • ...and " ++ toString ((a :: b :: rest : List DirPath).length - 5) ++ " more"]
            else ((a :: b :: rest).take 5).map (fun g => "  • " ++ pathStr g))
          ++ "\n  Run \x27apm compile --clean\x27 to remove orphaned files",
        ?_, ?_⟩
      · show _ ∈ generate_orphan_warnings (a :: b :: rest)
        exact List.mem_singleton.mpr rfl
      · apply infix_data_append_right
        apply infix_data_append_left
        exact (pathStr_infix_bullet f).trans (intercalate_mem_sub "\n" hline2)

theorem mem_orphanPhaseWarnings {w : String} {cfg : CompileConfig} {orphans : List DirPath}
    (hw : w ∈ generate_orphan_warnings orphans) : w ∈ orphanPhaseWarnings cfg orphans := by
  cases orphans with
  | nil => cases hw
  | cons a tail => exact List.mem_append_left _ hw

theorem compile_warnings_eq (env : CompileEnv) (prim : PrimitiveCollection)
    (cfg : CompileConfig) (hf : env.failure = none) :
    (compile_distributed env prim cfg).warnings =
      orphanPhaseWarnings cfg (find_orphaned_agents_files env
        ((generate_distributed_agents_files env cfg
          (determine_agents_placement env prim.instructions cfg.min_instructions_per_file)).map
          (fun p => p.agents_path)))
      ++ validate_coverage (generate_distributed_agents_files env cfg
          (determine_agents_placement env prim.instructions cfg.min_instructions_per_file))
          prim.instructions := by
  simp [compile_distributed, hf]

theorem compile_deleted_iff (env : CompileEnv) (prim : PrimitiveCollection)
    (cfg : CompileConfig) (hf : env.failure = none) (f : DirPath) :
    f ∈ compile_deleted_files env prim cfg ↔
      cfg.clean_orphaned = true ∧ cfg.dry_run = false ∧
        f ∈ find_orphaned_agents_files env
          ((generate_distributed_agents_files env cfg
            (determine_agents_placement env prim.instructions cfg.min_instructions_per_file)).map
            (fun p => p.agents_path)) := by
  have hred : compile_deleted_files env prim cfg =
      (match find_orphaned_agents_files env
          ((generate_distributed_agents_files env cfg
            (determine_agents_placement env prim.instructions cfg.min_instructions_per_file)).map
            (fun p => p.agents_path)) with
      | [] => []
      | _ :: _ =>
        if !cfg.dry_run && cfg.clean_orphaned then
          cleanup_deleted_files (find_orphaned_agents_files env
            ((generate_distributed_agents_files env cfg
              (determine_agents_placement env prim.instructions cfg.min_instructions_per_file)).map
              (fun p => p.agents_path))) false
        else []) := by
    simp [compile_deleted_files, hf]
  rw [hred]
  cases horph : find_orphaned_agents_files env
      ((generate_distributed_agents_files env cfg
        (determine_agents_placement env prim.instructions cfg.min_instructions_per_file)).map
        (fun p => p.agents_path)) with
  | nil => simp
  | cons x xs =>
    by_cases hd : cfg.dry_run = true
    · simp [hd, cleanup_deleted_files]
    · have hd' : cfg.dry_run = false := by
        cases h : cfg.dry_run
        · rfl
        · exact absurd h hd
      by_cases hcl : cfg.clean_orphaned = true
      · simp [hd', hcl, cleanup_deleted_files]
      · have hcl' : cfg.clean_orphaned = false := by
          cases h : cfg.clean_orphaned
          · rfl
          · exact absurd h hcl
        simp [hd', hcl']

/-!
Concrete environments used by witnesses and counterexamples.
-/

/-- Matcher fixture: pattern `p1` matches only `a/b/f.x`, `p2` only
`a/g1.y`, `p3` only `a/g2.y` (a possible outcome of
`_file_matches_pattern`, e.g. for the patterns `a/b/*.x`, `a/g1.y`,
`a/g2.y`). -/
def exMatcher : Matcher := fun path pat =>
  (pat == "p1" && path == ["a", "b", "f.x"]) ||
  (pat == "p2" && path == ["a", "g1.y"]) ||
  (pat == "p3" && path == ["a", "g2.y"])

/-- Catalog fixture with four directories holding files. -/
def exCatalog : List DirectoryAnalysis :=
  [⟨["a"], ["g1.y", "g2.y"]⟩, ⟨["a", "b"], ["f.x"]⟩, ⟨["c"], ["h.t"]⟩, ⟨["d"], ["k.t"]⟩]

/-- Environment fixture over `exCatalog`. -/
def exEnv : CompileEnv :=
  { catalog := exCatalog
    file_matches := exMatcher
    existing_dirs := []
    agents_files := []
    constitution_exists := false
    version := "1.0.0"
    failure := none }

/-- Instruction fixture scoped to `p1` (placed at `a/b`). -/
def exInstr1 : Instruction :=
  { name := "i1", file_path := ["apm", "i1.md"], description := "d"
    apply_to := "p1", content := "C one", source := "local" }

/-- Instruction fixture scoped to `p2` (placed at `a`). -/
def exInstr2 : Instruction :=
  { name := "i2", file_path := ["apm", "i2.md"], description := "d"
    apply_to := "p2", content := "C two", source := "local" }

/-- Instruction fixture scoped to `p3` (placed at `a`). -/
def exInstr3 : Instruction :=
  { name := "i3", file_path := ["apm", "i3.md"], description := "d"
    apply_to := "p3", content := "C three", source := "local" }

/-- Matcher fixture: pattern `pa` matches only the file `a/f.x`. -/
def smallMatcher : Matcher := fun path pat => pat == "pa" && path == ["a", "f.x"]

/-- Catalog fixture with two directories: the project root (one file) and
its only subdirectory `a` (one file, no siblings). -/
def smallCatalog : List DirectoryAnalysis := [⟨[], ["r.t"]⟩, ⟨["a"], ["f.x"]⟩]

/-- Environment fixture over `smallCatalog`. -/
def smallEnv : CompileEnv :=
  { catalog := smallCatalog
    file_matches := smallMatcher
    existing_dirs := []
    agents_files := []
    constitution_exists := false
    version := "1.0.0"
    failure := none }

/-- Instruction fixture scoped to `pa`. -/
def smallInstr : Instruction :=
  { name := "i", file_path := ["apm", "i.md"], description := "d"
    apply_to := "pa", content := "C", source := "local" }

/-- Environment fixture where the directory `docs` exists on disk (empty,
hence absent from the catalog) and no file matches any pattern of
interest. -/
def docsEnv : CompileEnv :=
  { catalog := smallCatalog
    file_matches := smallMatcher
    existing_dirs := [["docs"]]
    agents_files := []
    constitution_exists := false
    version := "1.0.0"
    failure := none }

/-- Instruction fixture whose pattern `docs/**/*.md` matches no files. -/
def docsInstr : Instruction :=
  { name := "docs", file_path := ["apm", "docs.md"], description := "d"
    apply_to := "docs/**/*.md", content := "C docs", source := "local" }

/-- Environment fixture with six pre-existing `AGENTS.md` files and no
instructions to compile. -/
def orphanEnv : CompileEnv :=
  { catalog := []
    file_matches := fun _ _ => false
    existing_dirs := []
    agents_files := [["d1", "AGENTS.md"], ["d2", "AGENTS.md"], ["d3", "AGENTS.md"],
      ["d4", "AGENTS.md"], ["d5", "AGENTS.md"], ["d6", "AGENTS.md"]]
    constitution_exists := false
    version := "1.0.0"
    failure := none }

/-- Environment fixture with two pre-existing `AGENTS.md` files. -/
def orphanEnvB : CompileEnv :=
  { catalog := []
    file_matches := fun _ _ => false
    existing_dirs := []
    agents_files := [["u", "AGENTS.md"], ["v", "AGENTS.md"]]
    constitution_exists := false
    version := "1.0.0"
    failure := none }

/-- Empty primitive collection fixture. -/
def emptyPrim : PrimitiveCollection := ⟨0, [], 0⟩

/-- Environment fixture whose compile raises (models an I/O failure inside
the `try` block). -/
def failEnv : CompileEnv :=
  { catalog := []
    file_matches := fun _ _ => false
    existing_dirs := []
    agents_files := []
    constitution_exists := false
    version := "1.0.0"
    failure := some "disk full" }

/-- Instruction fixture whose content strips to the empty string. -/
def blankInstr : Instruction :=
  { name := "blank", file_path := ["apm", "blank.md"], description := "d"
    apply_to := "a/*.md", content := "  \n", source := "local" }

/-- Placement fixture holding only `blankInstr` (attribution off). -/
def blankPlacement : PlacementResult :=
  { agents_path := ["AGENTS.md"]
    instructions := [blankInstr]
    coverage_patterns := ["a/*.md"]
    source_attribution := [] }

/-!
The claims.
-/

/-- C1.  Coverage invariant: for every input instruction whose scope
pattern matches a non-empty set of catalogued directories, and for every
directory in that matching set, the placement map returned by
`optimize_instruction_placement` contains at least one key that is that
directory itself or one of its ancestors and whose instruction list
contains that instruction. -/
theorem C1_coverage_invariant (env : CompileEnv) (instructions : List Instruction)
    (instr : Instruction) (d : DirPath) (hin : instr ∈ instructions)
    (hglob : instr.apply_to ≠ "")
    (hd : d ∈ find_matching_directories env instr.apply_to) :
    ∃ key l, (key, l) ∈ optimize_instruction_placement env instructions ∧
      key <+: d ∧ instr ∈ l := by
  obtain ⟨p, hp, hpd⟩ := solve_placement_optimization_covers env instr d hd
  obtain ⟨l, hl, hil⟩ := optimize_instruction_placement_holds env instructions instr hin hglob hp
  exact ⟨p, l, hl, hpd, hil⟩

/-- C1 witness: a concrete run over `exEnv` where `a/b` matches `exInstr1`
and the placement map holds `exInstr1` at an ancestor-or-self of `a/b`. -/
theorem C1_coverage_invariant_witness :
    exInstr1 ∈ [exInstr1, exInstr2, exInstr3] ∧ exInstr1.apply_to ≠ "" ∧
    ["a", "b"] ∈ find_matching_directories exEnv exInstr1.apply_to ∧
    (∃ key l, (key, l) ∈ optimize_instruction_placement exEnv [exInstr1, exInstr2, exInstr3] ∧
      key <+: ["a", "b"] ∧ exInstr1 ∈ l) :=
  ⟨by decide, by decide, by decide,
    C1_coverage_invariant exEnv [exInstr1, exInstr2, exInstr3] exInstr1 ["a", "b"]
      (by decide) (by decide) (by decide)⟩

/-- C2.  Determinism: the embedded `compile_distributed` is a pure function
of its environment, instruction list and configuration, so two runs on
unchanged input produce identical results (in particular a byte-identical
content map and an identical placement map), and the `## Files matching`
sections of every generated file are ordered lexicographically. -/
theorem C2_determinism (env : CompileEnv) (prim : PrimitiveCollection)
    (cfg : CompileConfig) (instrs : List Instruction) :
    compile_distributed env prim cfg = compile_distributed env prim cfg ∧
    optimize_instruction_placement env instrs = optimize_instruction_placement env instrs ∧
    ∀ p : PlacementResult, List.Sorted strLeRel (sectionPatterns p.instructions) :=
  ⟨rfl, rfl, fun p => sectionPatterns_sorted p.instructions⟩

/-- C3.  With `min_instructions_per_file = 2`, the optimizer places
`exInstr1` at `a/b`; the filter in `determine_agents_placement` first
moves it to the parent `a`, then processing the entry for `a` itself
overwrites that parent entry, so `exInstr1` is silently dropped from the
final placement map — and the compiler's own defensive check
(`_validate_coverage`) reports exactly that. -/
theorem C3_min_instructions_drop :
    (["a", "b"], [exInstr1]) ∈ optimize_instruction_placement exEnv [exInstr1, exInstr2, exInstr3] ∧
    determine_agents_placement exEnv [exInstr1, exInstr2, exInstr3] 2 =
      [(["a"], [exInstr2, exInstr3])] ∧
    (∀ e ∈ determine_agents_placement exEnv [exInstr1, exInstr2, exInstr3] 2,
      exInstr1 ∉ e.2) ∧
    "Instructions not placed in any AGENTS.md: apm/i1.md" ∈
      (compile_distributed exEnv ⟨0, [exInstr1, exInstr2, exInstr3], 0⟩
        { min_instructions_per_file := 2 }).warnings := by decide

/-- C4 counterexample: in `smallEnv` the pattern `pa` matches exactly one
catalogued directory, `a`, which has no sibling directories (the only
depth-1 catalogued directory is `a` itself), yet the optimizer routes the
instruction to SelectiveMulti, not SinglePoint: with only two catalogued
directories the distribution score is 1/2, not below 0.3. -/
theorem C4_counterexample :
    find_matching_directories smallEnv "pa" = [["a"]] ∧
    (smallEnv.catalog.filter (fun d => d.directory.length == 1)).map
      (fun d => d.directory) = [["a"]] ∧
    (solve_placement_optimization smallEnv smallInstr).decision.strategy =
      PlacementStrategy.selectiveMulti := by decide

/-- C4 (amended).  For every pattern whose matching set is exactly one
catalogued directory, when the catalog holds at least four directories
with files the distribution score is `1/N < 0.3`, the optimizer routes
the instruction to the SinglePoint strategy, and the final placement is
exactly that single matching directory.  (Sibling-freeness is irrelevant:
the routing depends only on the matching count and the catalog size.) -/
theorem C4_single_point_routing (env : CompileEnv) (instr : Instruction) (m : DirPath)
    (hm : find_matching_directories env instr.apply_to = [m])
    (hN : 4 ≤ totalDirsWithFiles env) :
    (solve_placement_optimization env instr).decision.strategy =
      PlacementStrategy.singlePoint ∧
    (solve_placement_optimization env instr).placements = [m] :=
  solve_singleton_routes_single_point env instr m hm hN

/-- C4 witness: in `exEnv` (four catalogued directories) the pattern `p1`
matches only `a/b`, routes SinglePoint and is placed exactly there. -/
theorem C4_single_point_routing_witness :
    find_matching_directories exEnv exInstr1.apply_to = [["a", "b"]] ∧
    4 ≤ totalDirsWithFiles exEnv ∧
    ((solve_placement_optimization exEnv exInstr1).decision.strategy =
        PlacementStrategy.singlePoint ∧
      (solve_placement_optimization exEnv exInstr1).placements = [["a", "b"]]) :=
  ⟨by decide, by decide,
    C4_single_point_routing exEnv exInstr1 ["a", "b"] (by decide) (by decide)⟩

/-- C5 counterexample: the candidate generated for `a` under pattern `pa`
in `smallEnv` has total score 2.1, while the claimed formula
`coverageEfficiency*1.0 + (1 − pollutionScore)*0.8 − depthPenalty` gives
1.8: the maintenance-locality term (weight 0.3) is part of the total. -/
theorem C5_counterexample :
    ∃ c ∈ generate_all_candidates smallEnv [["a"]] "pa",
      c.total_score.toRat ≠ c.coverage_efficiency.toRat * 1
        + (1 - c.pollution_score.toRat) * (8 / 10) - (depthPenalty c.directory).toRat := by
  refine ⟨mkCandidate smallEnv ["a"] "pa", by decide, ?_⟩
  have h1 : (mkCandidate smallEnv ["a"] "pa").total_score = ⟨210, 100⟩ := by decide
  have h2 : (mkCandidate smallEnv ["a"] "pa").coverage_efficiency = ⟨1, 1⟩ := by decide
  have h3 : (mkCandidate smallEnv ["a"] "pa").pollution_score = ⟨0, 1⟩ := by decide
  have hdir : (mkCandidate smallEnv ["a"] "pa").directory = ["a"] := rfl
  have h4 : depthPenalty ["a"] = ⟨0, 1⟩ := by decide
  rw [h1, h2, h3, hdir, h4]
  norm_num [Frac.toRat]

/-- C5 (amended).  Every placement candidate's total score equals
`coverageEfficiency*1.0 + (1 − pollutionScore)*0.8 +
maintenanceLocality*0.3 − depthPenalty`, with
`depthPenalty = max(0, (depth − 3)*0.1)`; the maintenance-locality term
(weight 0.3) is a genuine addend of the total, and its value always
equals the coverage efficiency. -/
theorem C5_candidate_total_score (env : CompileEnv) (matching : List DirPath)
    (pattern : String) (c : PlacementCandidate)
    (hc : c ∈ generate_all_candidates env matching pattern) :
    c.total_score.toRat = c.coverage_efficiency.toRat * 1
      + (1 - c.pollution_score.toRat) * (8 / 10)
      + c.maintenance_locality.toRat * (3 / 10)
      - (depthPenalty c.directory).toRat ∧
    c.maintenance_locality.toRat = c.coverage_efficiency.toRat := by
  obtain ⟨p, rfl⟩ := generate_all_candidates_shape hc
  constructor
  · exact mkCandidate_total_score_toRat env p pattern
  · exact maintenance_toRat_eq_coverage env p pattern

/-- C5 witness: the amended scoring identity instantiated at the concrete
candidate of `smallEnv`. -/
theorem C5_candidate_total_score_witness :
    mkCandidate smallEnv ["a"] "pa" ∈ generate_all_candidates smallEnv [["a"]] "pa" ∧
    ((mkCandidate smallEnv ["a"] "pa").total_score.toRat =
        (mkCandidate smallEnv ["a"] "pa").coverage_efficiency.toRat * 1
        + (1 - (mkCandidate smallEnv ["a"] "pa").pollution_score.toRat) * (8 / 10)
        + (mkCandidate smallEnv ["a"] "pa").maintenance_locality.toRat * (3 / 10)
        - (depthPenalty (mkCandidate smallEnv ["a"] "pa").directory).toRat ∧
      (mkCandidate smallEnv ["a"] "pa").maintenance_locality.toRat =
        (mkCandidate smallEnv ["a"] "pa").coverage_efficiency.toRat) :=
  ⟨by decide, C5_candidate_total_score smallEnv [["a"]] "pa"
    (mkCandidate smallEnv ["a"] "pa") (by decide)⟩

/-- C6.  For every instruction routed to the SelectiveMulti strategy with a
non-empty matching set, the minimal covering ancestor exists, hierarchically
covers every matching directory, and the strategy's result is always exactly
that single directory (the multi-placement remainder of
`_optimize_selective_placement` is unreachable). -/
theorem C6_selective_minimal_cover (env : CompileEnv) (matching : List DirPath)
    (pattern : String) (hne : matching ≠ []) :
    ∃ p, find_minimal_coverage_placement matching = some p ∧
      optimize_selective_placement env matching pattern = [p] ∧
      ∀ d ∈ matching, p <+: d := by
  obtain ⟨p, hp, heq⟩ := optimize_selective_placement_eq env matching pattern hne
  exact ⟨p, hp, heq, find_minimal_coverage_placement_covers hp⟩

/-- C6 witness: two matching directories sharing the prefix `a`. -/
theorem C6_selective_minimal_cover_witness :
    (([["a", "x"], ["a", "y"]] : List DirPath) ≠ []) ∧
    (∃ p, find_minimal_coverage_placement [["a", "x"], ["a", "y"]] = some p ∧
      optimize_selective_placement smallEnv [["a", "x"], ["a", "y"]] "pa" = [p] ∧
      ∀ d ∈ ([["a", "x"], ["a", "y"]] : List DirPath), p <+: d) :=
  ⟨by decide, C6_selective_minimal_cover smallEnv [["a", "x"], ["a", "y"]] "pa" (by decide)⟩

/-- C7.  For every instruction whose pattern matches no files the solver
places it at the directory named by the pattern's literal, non-wildcard
first path segment when that directory exists on disk (whether or not it is
catalogued), otherwise at the project root; it appends exactly one
"matches no files" warning for the instruction, and the recorded decision's
relevance score is 0. -/
theorem C7_no_match_fallback (env : CompileEnv) (instr : Instruction)
    (h : find_matching_directories env instr.apply_to = []) :
    (solve_placement_optimization env instr).placements =
      [(extract_intended_directory_from_pattern env instr.apply_to).getD []] ∧
    (solve_placement_optimization env instr).warnings.length = 1 ∧
    (∀ w ∈ (solve_placement_optimization env instr).warnings,
      ("matches no files").data <:+: w.data) ∧
    (solve_placement_optimization env instr).decision.relevance_score.toRat = 0 ∧
    extract_intended_directory_from_pattern env instr.apply_to =
      (if instr.apply_to ≠ "" ∧ ¬(("**/").data <+: instr.apply_to.data) ∧
          '/' ∈ instr.apply_to.data ∧ '*' ∉ (firstSegment instr.apply_to).data ∧
          firstSegment instr.apply_to ≠ "" ∧ [firstSegment instr.apply_to] ∈ env.existing_dirs
       then some [firstSegment instr.apply_to] else none) := by
  obtain ⟨h1, h2, h3, h4⟩ := solve_no_match env instr h
  exact ⟨h1, h2, h3, h4, extract_intended_spec env instr.apply_to⟩

/-- C7 witness: `docs/**/*.md` with an existing (uncatalogued, empty)
`docs` directory matches no files and is placed at `docs` with one warning
and relevance 0. -/
theorem C7_no_match_fallback_witness :
    find_matching_directories docsEnv docsInstr.apply_to = [] ∧
    inCatalog docsEnv ["docs"] = false ∧
    ((solve_placement_optimization docsEnv docsInstr).placements =
      [(extract_intended_directory_from_pattern docsEnv docsInstr.apply_to).getD []] ∧
    (solve_placement_optimization docsEnv docsInstr).warnings.length = 1 ∧
    (∀ w ∈ (solve_placement_optimization docsEnv docsInstr).warnings,
      ("matches no files").data <:+: w.data) ∧
    (solve_placement_optimization docsEnv docsInstr).decision.relevance_score.toRat = 0 ∧
    extract_intended_directory_from_pattern docsEnv docsInstr.apply_to =
      (if docsInstr.apply_to ≠ "" ∧ ¬(("**/").data <+: docsInstr.apply_to.data) ∧
          '/' ∈ docsInstr.apply_to.data ∧ '*' ∉ (firstSegment docsInstr.apply_to).data ∧
          firstSegment docsInstr.apply_to ≠ "" ∧
          [firstSegment docsInstr.apply_to] ∈ docsEnv.existing_dirs
       then some [firstSegment docsInstr.apply_to] else none)) :=
  ⟨by decide, by decide, C7_no_match_fallback docsEnv docsInstr (by decide)⟩

set_option maxRecDepth 8000 in
/-- C8 counterexample: with six orphaned `AGENTS.md` files and the clean
option unset, `d6/AGENTS.md` is an orphan of the run, yet no warning of the
compilation result mentions its path — the aggregated message names only
the first five and summarizes the rest by count. -/
theorem C8_counterexample :
    ["d6", "AGENTS.md"] ∈ find_orphaned_agents_files orphanEnv
      ((compile_distributed orphanEnv emptyPrim {}).placements.map (fun p => p.agents_path)) ∧
    ∀ w ∈ (compile_distributed orphanEnv emptyPrim {}).warnings,
      ¬ ((pathStr ["d6", "AGENTS.md"]).data <:+: w.data) := by
  constructor
  · decide
  · decide

/-- C8 (amended).  Every pre-existing `AGENTS.md` outside the skip
directories and not generated by the run is detected as an orphan; each of
the first five orphans is named in a warning of the result (the rest are
summarized by count); and an orphan is deleted from disk if and only if
the clean-orphaned option is set and the dry-run option is not. -/
theorem C8_orphan_reporting (env : CompileEnv) (prim : PrimitiveCollection)
    (cfg : CompileConfig) (hf : env.failure = none) :
    (∀ f, f ∈ find_orphaned_agents_files env
        ((generate_distributed_agents_files env cfg
          (determine_agents_placement env prim.instructions cfg.min_instructions_per_file)).map
          (fun p => p.agents_path)) ↔
      f ∈ env.agents_files ∧ f.any (fun part => skipDirs.contains part) = false ∧
        ((generate_distributed_agents_files env cfg
          (determine_agents_placement env prim.instructions cfg.min_instructions_per_file)).map
          (fun p => p.agents_path)).contains f = false) ∧
    (∀ f ∈ (find_orphaned_agents_files env
        ((generate_distributed_agents_files env cfg
          (determine_agents_placement env prim.instructions cfg.min_instructions_per_file)).map
          (fun p => p.agents_path))).take 5,
      ∃ w ∈ (compile_distributed env prim cfg).warnings, (pathStr f).data <:+: w.data) ∧
    (∀ f, f ∈ compile_deleted_files env prim cfg ↔
      cfg.clean_orphaned = true ∧ cfg.dry_run = false ∧
        f ∈ find_orphaned_agents_files env
          ((generate_distributed_agents_files env cfg
            (determine_agents_placement env prim.instructions cfg.min_instructions_per_file)).map
            (fun p => p.agents_path))) := by
  refine ⟨?_, ?_, fun f => compile_deleted_iff env prim cfg hf f⟩
  · intro f
    simp [find_orphaned_agents_files, List.mem_filter, Bool.and_eq_true, Bool.not_eq_true']
  · intro f hf5
    obtain ⟨w, hw, hinf⟩ := orphan_warning_names_take5 _ f hf5
    refine ⟨w, ?_, hinf⟩
    rw [compile_warnings_eq env prim cfg hf]
    exact List.mem_append_left _ (mem_orphanPhaseWarnings hw)

/-- C8 witness: a clean (non-dry) run over two orphans, both named in the
warnings and both deleted. -/
theorem C8_orphan_reporting_witness :
    orphanEnvB.failure = none ∧
    ((∀ f, f ∈ find_orphaned_agents_files orphanEnvB
        ((generate_distributed_agents_files orphanEnvB { clean_orphaned := true }
          (determine_agents_placement orphanEnvB emptyPrim.instructions
            ({ clean_orphaned := true } : CompileConfig).min_instructions_per_file)).map
          (fun p => p.agents_path)) ↔
      f ∈ orphanEnvB.agents_files ∧ f.any (fun part => skipDirs.contains part) = false ∧
        ((generate_distributed_agents_files orphanEnvB { clean_orphaned := true }
          (determine_agents_placement orphanEnvB emptyPrim.instructions
            ({ clean_orphaned := true } : CompileConfig).min_instructions_per_file)).map
          (fun p => p.agents_path)).contains f = false) ∧
    (∀ f ∈ (find_orphaned_agents_files orphanEnvB
        ((generate_distributed_agents_files orphanEnvB { clean_orphaned := true }
          (determine_agents_placement orphanEnvB emptyPrim.instructions
            ({ clean_orphaned := true } : CompileConfig).min_instructions_per_file)).map
          (fun p => p.agents_path))).take 5,
      ∃ w ∈ (compile_distributed orphanEnvB emptyPrim { clean_orphaned := true }).warnings,
        (pathStr f).data <:+: w.data) ∧
    (∀ f, f ∈ compile_deleted_files orphanEnvB emptyPrim { clean_orphaned := true } ↔
      ({ clean_orphaned := true } : CompileConfig).clean_orphaned = true ∧
        ({ clean_orphaned := true } : CompileConfig).dry_run = false ∧
        f ∈ find_orphaned_agents_files orphanEnvB
          ((generate_distributed_agents_files orphanEnvB { clean_orphaned := true }
            (determine_agents_placement orphanEnvB emptyPrim.instructions
              ({ clean_orphaned := true } : CompileConfig).min_instructions_per_file)).map
            (fun p => p.agents_path)))) :=
  ⟨rfl, C8_orphan_reporting orphanEnvB emptyPrim { clean_orphaned := true } rfl⟩

/-- C9.  `compile_distributed` always returns a `CompilationResult`:
`success` is true exactly when the errors list is empty, and when an
internal phase raises, the result has `success = false`, empty placements
and content map, and the single error string describing the failure. -/
theorem C9_totality (env : CompileEnv) (prim : PrimitiveCollection) (cfg : CompileConfig) :
    ((compile_distributed env prim cfg).success = true ↔
      (compile_distributed env prim cfg).errors = []) ∧
    ∀ e, env.failure = some e →
      compile_distributed env prim cfg =
        { success := false
          placements := []
          content_map := []
          warnings := []
          errors := ["Distributed compilation failed: " ++ e]
          stats := [] } :=
  ⟨compile_distributed_success_iff env prim cfg,
    fun e he => compile_distributed_failure env prim cfg e he⟩

/-- C9 witness: a run whose internal phase raises `disk full`. -/
theorem C9_totality_witness :
    failEnv.failure = some "disk full" ∧
    compile_distributed failEnv emptyPrim {} =
      { success := false
        placements := []
        content_map := []
        warnings := []
        errors := ["Distributed compilation failed: " ++ "disk full"]
        stats := [] } :=
  ⟨rfl, (C9_totality failEnv emptyPrim {}).2 "disk full" rfl⟩

/-- C10 counterexample: an instruction whose content strips to the empty
string still contributes its pattern's `## Files matching` section header
to the generated file (with an empty body), contradicting the claim that
such an instruction contributes no section. -/
theorem C10_counterexample :
    pyStrip blankInstr.content = "" ∧ blankInstr ∈ blankPlacement.instructions ∧
    "## Files matching `a/*.md`" ∈ generate_agents_sections smallEnv blankPlacement := by
  refine ⟨by decide, by decide, by decide⟩

/-- C10 (amended).  The generated content has one `## Files matching`
section per distinct non-empty `apply_to` pattern of the placement's
instructions; a global instruction (empty `apply_to`) contributes neither a
section nor body text (removing all global instructions leaves the
generated section list unchanged); and an instruction whose content strips
to the empty string contributes no body lines — though the section header
for its pattern still appears. -/
theorem C10_section_structure (env : CompileEnv) (p : PlacementResult) (i : Instruction)
    (hstrip : pyStrip i.content = "") :
    (∀ pat, pat ∈ sectionPatterns p.instructions ↔
      pat ≠ "" ∧ ∃ j ∈ p.instructions, j.apply_to = pat) ∧
    (sectionPatterns p.instructions).Nodup ∧
    instructionLines p i = [] ∧
    generate_agents_sections env (filterGlobals p) = generate_agents_sections env p :=
  ⟨fun _ => mem_sectionPatterns, sectionPatterns_nodup p.instructions,
    instructionLines_of_blank p i hstrip, sections_filter_globals env p⟩

/-- C10 witness: the amended structure at the blank-content placement. -/
theorem C10_section_structure_witness :
    pyStrip blankInstr.content = "" ∧
    ((∀ pat, pat ∈ sectionPatterns blankPlacement.instructions ↔
      pat ≠ "" ∧ ∃ j ∈ blankPlacement.instructions, j.apply_to = pat) ∧
    (sectionPatterns blankPlacement.instructions).Nodup ∧
    instructionLines blankPlacement blankInstr = [] ∧
    generate_agents_sections smallEnv (filterGlobals blankPlacement) =
      generate_agents_sections smallEnv blankPlacement) :=
  ⟨by decide, C10_section_structure smallEnv blankPlacement blankInstr (by decide)⟩
